import Mathlib

/-!
Shallow embedding of `head_probe.py`: a batch dispatcher (`probe_heads`)
that enumerates pending (layer, head) probing jobs, assigns GPU devices
round-robin, launches subprocesses in batches of `len(devices) *
models_per_gpu`, joins each full batch and checks exit codes, and a
simpler single-subprocess path (`probe_model`).

The filesystem (`rglob` results, `is_dir`) and the subprocess exit
behaviour (return code and captured stderr, per launch index) are
modelled as oracles; the run is modelled as an event trace (launches,
batch joins, printed messages) together with an optional Python-level
error (`IndexError`, `ValueError`, `ZeroDivisionError`).
-/

namespace HeadProbe

/-- The `LingualSetting` enum of the repository: cross, multi, or base. -/
inductive LingualSetting where
  | base
  | cross
  | multi
deriving DecidableEq, Repr

/-- Python `setting.name.lower()`. -/
def LingualSetting.lowName : LingualSetting → String
  | .base => "base"
  | .cross => "cross"
  | .multi => "multi"

/-- An `Experiment` enum member is identified by its `.name` string. -/
structure Experiment where
  name : String
deriving DecidableEq, Repr

/-- Oracle for the filesystem: `rglobResults dir pattern` is the list
produced by `list(Path(dir).rglob(pattern))` (in order), and `isDir d`
is `Path(d).is_dir()`. -/
structure FileSystem where
  rglobResults : String → String → List String
  isDir : String → Bool

/-- Oracle for subprocess behaviour, indexed by launch order: `retcode k`
is the return code of the k-th launched process, `stderr k` its captured
stderr (decoded); `communicate()` returns `(stdout, stderr)` where the
stderr component is `None` only if stderr was not piped. -/
structure ProcEnv where
  retcode : Nat → Int
  stderr : Nat → Option String

/-- Python exceptions that `probe_heads` / `probe_model` can raise. -/
inductive PyError where
  | indexError
  | valueError
  | zeroDivisionError
deriving DecidableEq, Repr

/-- The arguments of `probe_heads`, plus `nClasses` standing for the
externally parsed `task_def.n_class` (task-definition parsing is an
external collaborator of this script). -/
structure HeadProbeConfig where
  setting : LingualSetting
  finetunedTask : Experiment
  task : Experiment
  modelsPerGpu : Nat
  devices : List Int
  nClasses : Nat

/-- `checkpoint/head_probing/<finetuned_task>/<task>/<setting>/<hl>/<hi>`:
the per-head checkpoint directory scanned for completion markers and used
as `--output_dir`. -/
def headDirPath (cfg : HeadProbeConfig) (hl hi : Nat) : String :=
  "checkpoint/head_probing/" ++ cfg.finetunedTask.name ++ "/" ++ cfg.task.name ++ "/" ++
    cfg.setting.lowName ++ "/" ++ toString hl ++ "/" ++ toString hi

/-- `checkpoint/<finetuned_task>_<setting>`: the directory searched for
the finetuned checkpoint `model_5*.pt`. -/
def finetunedDirPath (taskName : String) (s : LingualSetting) : String :=
  "checkpoint/" ++ taskName ++ "_" ++ s.lowName

/-- The 12x12 grid of `itertools.product(range(12), repeat=2)`. -/
def gridPairs : List (Nat × Nat) :=
  (List.range 12).flatMap fun hl => (List.range 12).map fun hi => (hl, hi)

/-- Lines 37-42: keep only the pairs whose head directory holds no
`model_1_*.pt` completion marker. -/
def headsToProbe (fs : FileSystem) (cfg : HeadProbeConfig) : List (Nat × Nat) :=
  gridPairs.filter fun p =>
    (fs.rglobResults (headDirPath cfg p.1 p.2) "model_1_*.pt").length = 0

/-- Lines 47-50: `device_ids[i] = devices[i % len(devices)]` for each job
index `i`. -/
def deviceAssignment (devices : List Int) (n : Nat) : List Int :=
  (List.range n).map fun i => devices.getD (i % devices.length) 0

/-- The command template of lines 64-74 with the resume part spliced in
between the dataset prefix and the tail. -/
def headProbeCmdCore (cfg : HeadProbeConfig) (hl hi : Nat) (did : Int)
    (resumePart : String) : String :=
  "python train.py --local_rank -1 " ++
    "--dataset_name " ++ cfg.task.name ++ "/cross " ++
    resumePart ++
    "--epochs 2 --output_dir " ++ headDirPath cfg hl hi ++ " " ++
    "--init_checkpoint bert-base-multilingual-cased --devices " ++ toString did ++ " " ++
    "--head_probe --head_probe_layer " ++ toString hl ++ " --head_probe_idx " ++ toString hi ++
    " --head_probe_n_classes " ++ toString cfg.nClasses

/-- Lines 64-74: build the shell command for one head.  When the setting
is not BASE, line 69 takes `list(rglob('model_5*.pt'))[0]` unguarded: an
empty list raises `IndexError`. -/
def buildHeadTemplate (fs : FileSystem) (cfg : HeadProbeConfig) (hl hi : Nat)
    (did : Int) : Except PyError String :=
  if cfg.setting = .base then
    .ok (headProbeCmdCore cfg hl hi did "")
  else
    match fs.rglobResults (finetunedDirPath cfg.finetunedTask.name cfg.setting) "model_5*.pt" with
    | [] => .error .indexError
    | c :: _ => .ok (headProbeCmdCore cfg hl hi did ("--resume --model_ckpt " ++ c ++ " "))

/-- A pending job: launch index, head layer, head index, assigned device. -/
structure JobSpec where
  idx : Nat
  hl : Nat
  hi : Nat
  did : Int
deriving DecidableEq, Repr

/-- A launched process handle: the tuple `(hl, hi, did, process)` of line
78, with the launch index identifying the process for the oracles. -/
structure ProcInfo where
  hl : Nat
  hi : Nat
  did : Int
  launchIdx : Nat
  cmd : String
deriving DecidableEq, Repr

/-- Observable events of a `probe_heads` run. -/
inductive Event where
  | launch (p : ProcInfo)
  | joinBatch (ps : List ProcInfo)
  | printStderr (idx : Nat) (lines : List String)
  | printCompleted (idx : Nat)
deriving DecidableEq, Repr

/-- Result of a run: the event trace and the exception, if one escaped. -/
structure RunResult where
  trace : List Event
  error : Option PyError
deriving DecidableEq, Repr

/-- Line 86's test for one joined process: stderr was captured (not
`None`) and the return code is exactly 1. -/
def failsB (env : ProcEnv) (k : Nat) : Bool :=
  (env.stderr k).isSome && (env.retcode k == 1)

/-- Lines 87: `r[1].decode('utf-8').split('\n')`. -/
def stderrLines (env : ProcEnv) (k : Nat) : List String :=
  ((env.stderr k).getD "").splitOn "\n"

/-- Lines 83-93: walk the joined batch in order; print `completed` for
each clean process, and on the first process with captured stderr and
return code 1 print its stderr lines and stop (the `raise`). -/
def checkBatchEvents (env : ProcEnv) : List ProcInfo → List Event
  | [] => []
  | p :: rest =>
    if failsB env p.launchIdx then
      [Event.printStderr p.launchIdx (stderrLines env p.launchIdx)]
    else
      Event.printCompleted p.launchIdx :: checkBatchEvents env rest

/-- Whether the batch walk of lines 83-93 reaches the `raise ValueError`. -/
def checkBatchRaised (env : ProcEnv) : List ProcInfo → Bool
  | [] => false
  | p :: rest => failsB env p.launchIdx || checkBatchRaised env rest

/-- Lines 57-97: the dispatch loop.  Each job builds its command (which
may raise `IndexError`), is launched, and once the pending list reaches
`B = len(devices) * models_per_gpu` the whole batch is joined and
checked; line 97 finally waits on the remaining processes without any
check (an empty remainder waits on nothing). -/
def dispatchLoop (fs : FileSystem) (env : ProcEnv) (cfg : HeadProbeConfig) (B : Nat) :
    List JobSpec → List ProcInfo → RunResult
  | [], procs =>
    { trace := if procs.isEmpty then [] else [Event.joinBatch procs], error := none }
  | j :: rest, procs =>
    match buildHeadTemplate fs cfg j.hl j.hi j.did with
    | .error e => { trace := [], error := some e }
    | .ok cmd =>
      let p : ProcInfo := { hl := j.hl, hi := j.hi, did := j.did, launchIdx := j.idx, cmd := cmd }
      let procs2 := procs ++ [p]
      if procs2.length = B then
        if checkBatchRaised env procs2 then
          { trace := Event.launch p :: Event.joinBatch procs2 :: checkBatchEvents env procs2,
            error := some .valueError }
        else
          let r := dispatchLoop fs env cfg B rest []
          { trace := Event.launch p :: Event.joinBatch procs2 ::
              (checkBatchEvents env procs2 ++ r.trace),
            error := r.error }
      else
        let r := dispatchLoop fs env cfg B rest procs2
        { trace := Event.launch p :: r.trace, error := r.error }

/-- Pair each pending head with its launch index and assigned device. -/
def mkJobs (heads : List (Nat × Nat)) (dids : List Int) : List JobSpec :=
  heads.enum.map fun e => { idx := e.1, hl := e.2.1, hi := e.2.2, did := dids.getD e.1 0 }

/-- Lines 13-97, `probe_heads`.  Returns early when nothing is pending
(lines 44-45); with pending work and an empty device list, line 50's
`i % len(devices)` raises `ZeroDivisionError` before any launch. -/
def probeHeads (fs : FileSystem) (env : ProcEnv) (cfg : HeadProbeConfig) : RunResult :=
  let heads := headsToProbe fs cfg
  if heads.length = 0 then
    { trace := [], error := none }
  else if cfg.devices.length = 0 then
    { trace := [], error := some .zeroDivisionError }
  else
    let dids := deviceAssignment cfg.devices heads.length
    dispatchLoop fs env cfg (cfg.devices.length * cfg.modelsPerGpu) (mkJobs heads dids) []

/-! probe_model (lines 99-145) -/

/-- Result of `probe_model`: messages printed, the single launched
command if one was launched, whether it was waited on, and the escaped
exception if any. -/
structure ModelRunResult where
  printed : List String
  launchedCmd : Option String
  waited : Bool
  error : Option PyError
deriving DecidableEq, Repr

/-- Line 104: the task info string; it reads the module-level `setting`,
not the `finetuned_setting` parameter. -/
def taskInfoStr (globalSetting : LingualSetting) (finetunedTask : Experiment)
    (downstreamSetting : LingualSetting) (downstreamTask : Experiment) : String :=
  finetunedTask.name ++ "_" ++ globalSetting.lowName ++ " -> " ++
    downstreamTask.name ++ ", " ++ downstreamSetting.lowName

/-- Lines 115-125: the target checkpoint directory of the full-model
probe. -/
def modelCheckpointDir (finetunedSetting : LingualSetting) (finetunedTask : Experiment)
    (downstreamSetting : LingualSetting) (downstreamTask : Experiment) : String :=
  if finetunedSetting = .base then
    "checkpoint/full_model_probe/" ++ downstreamSetting.lowName ++ "_head_training/mBERT/" ++
      downstreamTask.name
  else
    "checkpoint/full_model_probe/" ++ downstreamSetting.lowName ++ "_head_training/" ++
      finetunedTask.name ++ "/" ++ finetunedSetting.lowName ++ "/" ++ downstreamTask.name

/-- Lines 131-141 with the resume part spliced in. -/
def modelProbeCmdCore (finetunedSetting : LingualSetting) (finetunedTask : Experiment)
    (downstreamSetting : LingualSetting) (downstreamTask : Experiment)
    (devices : List Int) (nClasses : Nat) (resumePart : String) : String :=
  "python train.py --local_rank -1 " ++
    "--dataset_name " ++ downstreamTask.name ++ "/" ++ downstreamSetting.lowName ++ " " ++
    resumePart ++
    "--epochs 2 --output_dir " ++
      modelCheckpointDir finetunedSetting finetunedTask downstreamSetting downstreamTask ++ " " ++
    "--init_checkpoint bert-base-multilingual-cased --devices " ++
      String.intercalate " " (devices.map toString) ++ " " ++
    "--model_probe --model_probe_n_classes " ++ toString nClasses

/-- Lines 99-145, `probe_model`.  `globalSetting` is the module-level
`setting` variable that lines 104 and 134 read instead of the
`finetuned_setting` parameter; line 136 takes `rglob('model_5*.pt')[0]`
unguarded.  The subprocess oracle is taken but never consulted: line 145
waits without reading the return code. -/
def probeModel (fs : FileSystem) (_env : ProcEnv) (globalSetting : LingualSetting)
    (finetunedSetting : LingualSetting) (finetunedTask : Experiment)
    (downstreamSetting : LingualSetting) (downstreamTask : Experiment)
    (devices : List Int) (nClasses : Nat) : ModelRunResult :=
  let info := taskInfoStr globalSetting finetunedTask downstreamSetting downstreamTask
  let ckDir := modelCheckpointDir finetunedSetting finetunedTask downstreamSetting downstreamTask
  if fs.isDir ckDir then
    { printed := [ckDir ++ " exists, skipping " ++ info],
      launchedCmd := none, waited := false, error := none }
  else
    let resumed : Except PyError String :=
      if globalSetting = .base then .ok ""
      else
        match fs.rglobResults (finetunedDirPath finetunedTask.name finetunedSetting) "model_5*.pt" with
        | [] => .error .indexError
        | c :: _ => .ok ("--resume --model_ckpt " ++ c ++ " ")
    match resumed with
    | .error e => { printed := [], launchedCmd := none, waited := false, error := some e }
    | .ok resumePart =>
      { printed := [info],
        launchedCmd := some (modelProbeCmdCore finetunedSetting finetunedTask
          downstreamSetting downstreamTask devices nClasses resumePart),
        waited := true, error := none }

/-! Trace accessors -/

/-- The jobs launched in a trace, in order. -/
def launchSpecs (t : List Event) : List JobSpec :=
  t.filterMap fun e =>
    match e with
    | .launch p => some { idx := p.launchIdx, hl := p.hl, hi := p.hi, did := p.did }
    | _ => none

/-- Number of subprocess launches in a trace. -/
def countLaunches (t : List Event) : Nat :=
  (launchSpecs t).length

/-- The devices of the launches in a trace, in order. -/
def launchDids (t : List Event) : List Int :=
  (launchSpecs t).map JobSpec.did

/-- Number of batch joins in a trace. -/
def countJoins (t : List Event) : Nat :=
  t.countP fun e =>
    match e with
    | .joinBatch _ => true
    | _ => false

/-- Number of `completed` messages in a trace. -/
def countCompleted (t : List Event) : Nat :=
  t.countP fun e =>
    match e with
    | .printCompleted _ => true
    | _ => false

/-- The stderr dumps printed in a trace: launch index and printed lines. -/
def printStderrEvents (t : List Event) : List (Nat × List String) :=
  t.filterMap fun e =>
    match e with
    | .printStderr i ls => some (i, ls)
    | _ => none

/-- Running count of launched-but-not-yet-joined processes, tracking the
maximum reached: `launch` adds one, `joinBatch ps` removes `ps.length`. -/
def runningMax : List Event → Nat → Nat → Nat
  | [], _, mx => mx
  | .launch _ :: rest, cur, mx => runningMax rest (cur + 1) (max mx (cur + 1))
  | .joinBatch ps :: rest, cur, mx => runningMax rest (cur - ps.length) mx
  | .printStderr _ _ :: rest, cur, mx => runningMax rest cur mx
  | .printCompleted _ :: rest, cur, mx => runningMax rest cur mx

/-- Peak number of concurrently launched (not yet joined) processes. -/
def maxConcurrent (t : List Event) : Nat :=
  runningMax t 0 0

/-- Every `joinBatch` joins exactly the processes pending at that point
(the whole current batch), leaving none pending. -/
def wholeBatchJoins : List Event → Nat → Bool
  | [], _ => true
  | .launch _ :: rest, cur => wholeBatchJoins rest (cur + 1)
  | .joinBatch ps :: rest, cur => ps.length == cur && wholeBatchJoins rest 0
  | .printStderr _ _ :: rest, cur => wholeBatchJoins rest cur
  | .printCompleted _ :: rest, cur => wholeBatchJoins rest cur

/-- Print events (no launch, no join). -/
def isPrintEvent : Event → Bool
  | .printStderr _ _ => true
  | .printCompleted _ => true
  | _ => false

/-- The head-probe template always builds when the setting is BASE or a
`model_5*.pt` file exists under the finetuned checkpoint directory. -/
def templatesOk (fs : FileSystem) (cfg : HeadProbeConfig) : Prop :=
  cfg.setting = .base ∨
    fs.rglobResults (finetunedDirPath cfg.finetunedTask.name cfg.setting) "model_5*.pt" ≠ []

instance (fs : FileSystem) (cfg : HeadProbeConfig) : Decidable (templatesOk fs cfg) := by
  unfold templatesOk
  infer_instance

/-! Helper lemmas about the trace accessors -/

theorem launchSpecs_append (l t : List Event) :
    launchSpecs (l ++ t) = launchSpecs l ++ launchSpecs t := by
  simp [launchSpecs, List.filterMap_append]

theorem printStderrEvents_append (l t : List Event) :
    printStderrEvents (l ++ t) = printStderrEvents l ++ printStderrEvents t := by
  simp [printStderrEvents, List.filterMap_append]

theorem countJoins_append (l t : List Event) :
    countJoins (l ++ t) = countJoins l + countJoins t := by
  simp [countJoins, List.countP_append]

theorem countCompleted_append (l t : List Event) :
    countCompleted (l ++ t) = countCompleted l + countCompleted t := by
  simp [countCompleted, List.countP_append]

theorem checkBatchEvents_cons_clean (env : ProcEnv) (p : ProcInfo) (rest : List ProcInfo)
    (h : failsB env p.launchIdx = false) :
    checkBatchEvents env (p :: rest) =
      Event.printCompleted p.launchIdx :: checkBatchEvents env rest := by
  simp [checkBatchEvents, h]

theorem checkBatchEvents_cons_fail (env : ProcEnv) (p : ProcInfo) (rest : List ProcInfo)
    (h : failsB env p.launchIdx = true) :
    checkBatchEvents env (p :: rest) =
      [Event.printStderr p.launchIdx (stderrLines env p.launchIdx)] := by
  simp [checkBatchEvents, h]

/-- The batch check of lines 83-93 only prints; it launches and joins
nothing. -/
theorem checkBatchEvents_print (env : ProcEnv) (ps : List ProcInfo) :
    ∀ e ∈ checkBatchEvents env ps, isPrintEvent e = true := by
  induction ps with
  | nil => simp [checkBatchEvents]
  | cons p rest ih =>
    intro e he
    by_cases h : failsB env p.launchIdx
    · rw [checkBatchEvents_cons_fail env p rest h] at he
      simp at he
      subst he
      rfl
    · rw [checkBatchEvents_cons_clean env p rest (by simpa using h)] at he
      rcases List.mem_cons.mp he with he | he
      · subst he; rfl
      · exact ih e he

theorem launchSpecs_of_print (l : List Event) (hp : ∀ e ∈ l, isPrintEvent e = true) :
    launchSpecs l = [] := by
  induction l with
  | nil => rfl
  | cons e rest ih =>
    have he := hp e (List.mem_cons_self e rest)
    have hrest := ih fun x hx => hp x (List.mem_cons_of_mem e hx)
    cases e <;> simp [isPrintEvent] at he <;> simp [launchSpecs, List.filterMap_cons] at hrest ⊢ <;>
      exact hrest

theorem printStderrEvents_of_completed (ps : List ProcInfo) :
    printStderrEvents (ps.map fun q => Event.printCompleted q.launchIdx) = [] := by
  induction ps with
  | nil => rfl
  | cons p rest ih => simp [printStderrEvents, List.filterMap_cons]

theorem countJoins_of_print (l : List Event) (hp : ∀ e ∈ l, isPrintEvent e = true) :
    countJoins l = 0 := by
  induction l with
  | nil => rfl
  | cons e rest ih =>
    have he := hp e (List.mem_cons_self e rest)
    have hrest := ih fun x hx => hp x (List.mem_cons_of_mem e hx)
    cases e <;> simp [isPrintEvent] at he <;> simpa [countJoins, List.countP_cons] using hrest

theorem runningMax_print_append (l t : List Event) (hp : ∀ e ∈ l, isPrintEvent e = true)
    (cur mx : Nat) : runningMax (l ++ t) cur mx = runningMax t cur mx := by
  induction l with
  | nil => rfl
  | cons e rest ih =>
    have he := hp e (List.mem_cons_self e rest)
    have hrest := fun x hx => hp x (List.mem_cons_of_mem e hx)
    cases e <;> simp [isPrintEvent] at he <;> simpa [runningMax] using ih hrest

theorem wholeBatchJoins_print_append (l t : List Event) (hp : ∀ e ∈ l, isPrintEvent e = true)
    (cur : Nat) : wholeBatchJoins (l ++ t) cur = wholeBatchJoins t cur := by
  induction l with
  | nil => rfl
  | cons e rest ih =>
    have he := hp e (List.mem_cons_self e rest)
    have hrest := fun x hx => hp x (List.mem_cons_of_mem e hx)
    cases e <;> simp [isPrintEvent] at he <;> simpa [wholeBatchJoins] using ih hrest

/-- The process handle built for a job at line 77-78. -/
def mkProc (j : JobSpec) (c : String) : ProcInfo :=
  { hl := j.hl, hi := j.hi, did := j.did, launchIdx := j.idx, cmd := c }

theorem buildHeadTemplate_ok (fs : FileSystem) (cfg : HeadProbeConfig)
    (h : templatesOk fs cfg) (hl hi : Nat) (did : Int) :
    ∃ c, buildHeadTemplate fs cfg hl hi did = .ok c := by
  by_cases hb : cfg.setting = .base
  · exact ⟨headProbeCmdCore cfg hl hi did "", by simp [buildHeadTemplate, hb]⟩
  · cases hck : fs.rglobResults (finetunedDirPath cfg.finetunedTask.name cfg.setting) "model_5*.pt" with
    | nil =>
      rcases h with h | h
      · exact absurd h hb
      · exact absurd hck h
    | cons c tl =>
      exact ⟨headProbeCmdCore cfg hl hi did ("--resume --model_ckpt " ++ c ++ " "),
        by simp [buildHeadTemplate, hb, hck]⟩

/-! Stepping equations for the dispatch loop -/

theorem dispatchLoop_nil (fs : FileSystem) (env : ProcEnv) (cfg : HeadProbeConfig) (B : Nat)
    (procs : List ProcInfo) :
    dispatchLoop fs env cfg B [] procs =
      { trace := if procs.isEmpty then [] else [Event.joinBatch procs], error := none } := rfl

theorem dispatchLoop_cons_notfull (fs : FileSystem) (env : ProcEnv) (cfg : HeadProbeConfig)
    (B : Nat) (j : JobSpec) (rest : List JobSpec) (procs : List ProcInfo) (c : String)
    (hc : buildHeadTemplate fs cfg j.hl j.hi j.did = .ok c)
    (hfull : ¬ procs.length + 1 = B) :
    dispatchLoop fs env cfg B (j :: rest) procs =
      { trace := Event.launch (mkProc j c) ::
          (dispatchLoop fs env cfg B rest (procs ++ [mkProc j c])).trace,
        error := (dispatchLoop fs env cfg B rest (procs ++ [mkProc j c])).error } := by
  simp only [dispatchLoop, hc]
  simp [mkProc, hfull]

theorem dispatchLoop_cons_full_raised (fs : FileSystem) (env : ProcEnv) (cfg : HeadProbeConfig)
    (B : Nat) (j : JobSpec) (rest : List JobSpec) (procs : List ProcInfo) (c : String)
    (hc : buildHeadTemplate fs cfg j.hl j.hi j.did = .ok c)
    (hfull : procs.length + 1 = B)
    (hr : checkBatchRaised env (procs ++ [mkProc j c]) = true) :
    dispatchLoop fs env cfg B (j :: rest) procs =
      { trace := Event.launch (mkProc j c) :: Event.joinBatch (procs ++ [mkProc j c]) ::
          checkBatchEvents env (procs ++ [mkProc j c]),
        error := some .valueError } := by
  simp only [dispatchLoop, hc]
  simp [mkProc, hfull] at hr ⊢
  simp [hr]

theorem dispatchLoop_cons_full_clean (fs : FileSystem) (env : ProcEnv) (cfg : HeadProbeConfig)
    (B : Nat) (j : JobSpec) (rest : List JobSpec) (procs : List ProcInfo) (c : String)
    (hc : buildHeadTemplate fs cfg j.hl j.hi j.did = .ok c)
    (hfull : procs.length + 1 = B)
    (hr : checkBatchRaised env (procs ++ [mkProc j c]) = false) :
    dispatchLoop fs env cfg B (j :: rest) procs =
      { trace := Event.launch (mkProc j c) :: Event.joinBatch (procs ++ [mkProc j c]) ::
          (checkBatchEvents env (procs ++ [mkProc j c]) ++
            (dispatchLoop fs env cfg B rest []).trace),
        error := (dispatchLoop fs env cfg B rest []).error } := by
  simp only [dispatchLoop, hc]
  simp [mkProc, hfull] at hr ⊢
  simp [hr]

/-! Characterisations of the batch check -/

/-- If no process of the batch fails, the check raises nothing and prints
`completed` for every process in order. -/
theorem checkBatch_clean (env : ProcEnv) (ps : List ProcInfo)
    (h : ∀ u < ps.length, failsB env ((ps.map ProcInfo.launchIdx).getD u 0) = false) :
    checkBatchRaised env ps = false ∧
      checkBatchEvents env ps = ps.map fun q => Event.printCompleted q.launchIdx := by
  induction ps with
  | nil => exact ⟨rfl, rfl⟩
  | cons p rest ih =>
    have h0 : failsB env p.launchIdx = false := by simpa using h 0 (by simp)
    have hrest : ∀ u < rest.length,
        failsB env ((rest.map ProcInfo.launchIdx).getD u 0) = false := by
      intro u hu
      simpa [List.getD_cons_succ] using h (u + 1) (by simpa using Nat.succ_lt_succ hu)
    obtain ⟨hr, he⟩ := ih hrest
    refine ⟨by simp [checkBatchRaised, h0, hr], ?_⟩
    rw [checkBatchEvents_cons_clean env p rest h0, he]
    simp

/-- If the first failing process of the batch sits at position `w`, the
check prints `completed` for the first `w` processes, then prints that
process's stderr and raises. -/
theorem checkBatch_first_fail (env : ProcEnv) (ps : List ProcInfo) (w : Nat)
    (hw : w < ps.length)
    (hf : failsB env ((ps.map ProcInfo.launchIdx).getD w 0) = true)
    (hb : ∀ u < w, failsB env ((ps.map ProcInfo.launchIdx).getD u 0) = false) :
    checkBatchRaised env ps = true ∧
      checkBatchEvents env ps =
        ((ps.take w).map fun q => Event.printCompleted q.launchIdx) ++
          [Event.printStderr ((ps.map ProcInfo.launchIdx).getD w 0)
            (stderrLines env ((ps.map ProcInfo.launchIdx).getD w 0))] := by
  induction ps generalizing w with
  | nil => simp at hw
  | cons p rest ih =>
    cases w with
    | zero =>
      have hf0 : failsB env p.launchIdx = true := by simpa using hf
      refine ⟨by simp [checkBatchRaised, hf0], ?_⟩
      rw [checkBatchEvents_cons_fail env p rest hf0]
      simp
    | succ w2 =>
      have h0 : failsB env p.launchIdx = false := by simpa using hb 0 (Nat.succ_pos w2)
      have hf2 : failsB env ((rest.map ProcInfo.launchIdx).getD w2 0) = true := by
        simpa [List.getD_cons_succ] using hf
      have hb2 : ∀ u < w2, failsB env ((rest.map ProcInfo.launchIdx).getD u 0) = false := by
        intro u hu
        simpa [List.getD_cons_succ] using hb (u + 1) (Nat.succ_lt_succ hu)
      obtain ⟨hr, he⟩ := ih w2 (by simpa using Nat.lt_of_succ_lt_succ hw) hf2 hb2
      refine ⟨by simp [checkBatchRaised, hr], ?_⟩
      rw [checkBatchEvents_cons_clean env p rest h0, he]
      simp [List.getD_cons_succ]

@[simp]
theorem launchSpecs_nil : launchSpecs [] = [] := rfl

@[simp]
theorem launchSpecs_cons_launch (p : ProcInfo) (t : List Event) :
    launchSpecs (Event.launch p :: t) =
      { idx := p.launchIdx, hl := p.hl, hi := p.hi, did := p.did } :: launchSpecs t := rfl

@[simp]
theorem launchSpecs_cons_join (ps : List ProcInfo) (t : List Event) :
    launchSpecs (Event.joinBatch ps :: t) = launchSpecs t := rfl

@[simp]
theorem launchSpecs_cons_stderr (i : Nat) (ls : List String) (t : List Event) :
    launchSpecs (Event.printStderr i ls :: t) = launchSpecs t := rfl

@[simp]
theorem launchSpecs_cons_completed (i : Nat) (t : List Event) :
    launchSpecs (Event.printCompleted i :: t) = launchSpecs t := rfl

@[simp]
theorem countJoins_nil : countJoins [] = 0 := rfl

@[simp]
theorem countJoins_cons_launch (p : ProcInfo) (t : List Event) :
    countJoins (Event.launch p :: t) = countJoins t := by
  simp [countJoins, List.countP_cons]

@[simp]
theorem countJoins_cons_join (ps : List ProcInfo) (t : List Event) :
    countJoins (Event.joinBatch ps :: t) = countJoins t + 1 := by
  simp [countJoins, List.countP_cons]

@[simp]
theorem countJoins_cons_stderr (i : Nat) (ls : List String) (t : List Event) :
    countJoins (Event.printStderr i ls :: t) = countJoins t := by
  simp [countJoins, List.countP_cons]

@[simp]
theorem countJoins_cons_completed (i : Nat) (t : List Event) :
    countJoins (Event.printCompleted i :: t) = countJoins t := by
  simp [countJoins, List.countP_cons]

@[simp]
theorem countCompleted_nil : countCompleted [] = 0 := rfl

@[simp]
theorem countCompleted_cons_launch (p : ProcInfo) (t : List Event) :
    countCompleted (Event.launch p :: t) = countCompleted t := by
  simp [countCompleted, List.countP_cons]

@[simp]
theorem countCompleted_cons_join (ps : List ProcInfo) (t : List Event) :
    countCompleted (Event.joinBatch ps :: t) = countCompleted t := by
  simp [countCompleted, List.countP_cons]

@[simp]
theorem countCompleted_cons_stderr (i : Nat) (ls : List String) (t : List Event) :
    countCompleted (Event.printStderr i ls :: t) = countCompleted t := by
  simp [countCompleted, List.countP_cons]

@[simp]
theorem countCompleted_cons_completed (i : Nat) (t : List Event) :
    countCompleted (Event.printCompleted i :: t) = countCompleted t + 1 := by
  simp [countCompleted, List.countP_cons]

@[simp]
theorem printStderrEvents_nil : printStderrEvents [] = [] := rfl

@[simp]
theorem printStderrEvents_cons_launch (p : ProcInfo) (t : List Event) :
    printStderrEvents (Event.launch p :: t) = printStderrEvents t := rfl

@[simp]
theorem printStderrEvents_cons_join (ps : List ProcInfo) (t : List Event) :
    printStderrEvents (Event.joinBatch ps :: t) = printStderrEvents t := rfl

@[simp]
theorem printStderrEvents_cons_stderr (i : Nat) (ls : List String) (t : List Event) :
    printStderrEvents (Event.printStderr i ls :: t) = (i, ls) :: printStderrEvents t := rfl

@[simp]
theorem printStderrEvents_cons_completed (i : Nat) (t : List Event) :
    printStderrEvents (Event.printCompleted i :: t) = printStderrEvents t := rfl

theorem launchSpecs_map_completed (ps : List ProcInfo) :
    launchSpecs (ps.map fun q => Event.printCompleted q.launchIdx) = [] := by
  induction ps with
  | nil => rfl
  | cons p rest ih => simpa using ih

theorem countJoins_map_completed (ps : List ProcInfo) :
    countJoins (ps.map fun q => Event.printCompleted q.launchIdx) = 0 := by
  induction ps with
  | nil => rfl
  | cons p rest ih => simpa using ih

theorem countCompleted_map_completed (ps : List ProcInfo) :
    countCompleted (ps.map fun q => Event.printCompleted q.launchIdx) = ps.length := by
  induction ps with
  | nil => rfl
  | cons p rest ih => simpa using ih

/-- Clean runs of the dispatch loop: starting with `procs` pending
processes and `js` jobs still to launch, if no process belonging to a
full (checked) batch fails, the loop finishes without error, launches
every job in order, joins `ceil(total / B)` batches, prints `completed`
for exactly the checked processes, prints no stderr, and (when the total
is not a multiple of `B`) ends with the uninspected final join of the
remaining `total % B` processes. -/
theorem dispatchLoop_clean (fs : FileSystem) (env : ProcEnv) (cfg : HeadProbeConfig) (B : Nat)
    (htmpl : templatesOk fs cfg) :
    ∀ (js : List JobSpec) (procs : List ProcInfo),
      procs.length < B →
      (∀ u < B * ((procs.length + js.length) / B),
        failsB env ((procs.map ProcInfo.launchIdx ++ js.map JobSpec.idx).getD u 0) = false) →
      (dispatchLoop fs env cfg B js procs).error = none ∧
      launchSpecs (dispatchLoop fs env cfg B js procs).trace = js ∧
      countJoins (dispatchLoop fs env cfg B js procs).trace =
        (procs.length + js.length + B - 1) / B ∧
      countCompleted (dispatchLoop fs env cfg B js procs).trace =
        B * ((procs.length + js.length) / B) ∧
      printStderrEvents (dispatchLoop fs env cfg B js procs).trace = [] ∧
      ((procs.length + js.length) % B ≠ 0 →
        ∃ ps, (dispatchLoop fs env cfg B js procs).trace.getLast? = some (Event.joinBatch ps) ∧
          ps.length = (procs.length + js.length) % B) := by
  intro js
  induction js with
  | nil =>
    intro procs hp hclean
    have hB : 0 < B := Nat.lt_of_le_of_lt (Nat.zero_le _) hp
    rw [dispatchLoop_nil]
    cases procs with
    | nil =>
      refine ⟨rfl, by simp, ?_, by simp, by simp, ?_⟩
      · simp [Nat.div_eq_of_lt (show B - 1 < B by omega)]
      · intro hmod
        simp at hmod
    | cons q tl =>
      have hlen : (q :: tl).length = tl.length + 1 := rfl
      refine ⟨rfl, by simp, ?_, ?_, by simp, ?_⟩
      · have h1 : (q :: tl).length + ([] : List JobSpec).length + B - 1 = tl.length + B := by
          simp only [List.length_nil, List.length_cons]
          omega
        rw [h1, Nat.add_div_right _ hB, Nat.div_eq_of_lt (by omega)]
        simp
      · have h2 : ((q :: tl).length + ([] : List JobSpec).length) / B = 0 :=
          Nat.div_eq_of_lt (by simpa using hp)
        rw [h2]
        simp
      · intro hmod
        refine ⟨q :: tl, by simp, ?_⟩
        simp only [List.length_nil, Nat.add_zero]
        exact (Nat.mod_eq_of_lt hp).symm
  | cons j rest ih =>
    intro procs hp hclean
    have hB : 0 < B := Nat.lt_of_le_of_lt (Nat.zero_le _) hp
    obtain ⟨c, hc⟩ := buildHeadTemplate_ok fs cfg htmpl j.hl j.hi j.did
    have hP2 : (procs ++ [mkProc j c]).length = procs.length + 1 := by simp
    have hjl : (j :: rest).length = rest.length + 1 := rfl
    have halls : (procs ++ [mkProc j c]).map ProcInfo.launchIdx ++ rest.map JobSpec.idx
        = procs.map ProcInfo.launchIdx ++ (j :: rest).map JobSpec.idx := by
      simp [mkProc]
    by_cases hfull : procs.length + 1 = B
    · -- the batch fills: join and check, then continue with an empty list
      have hsum : procs.length + (j :: rest).length = rest.length + B := by
        rw [hjl]; omega
      have hdivtot : (procs.length + (j :: rest).length) / B = rest.length / B + 1 := by
        rw [hsum, Nat.add_div_right _ hB]
      have hup : ∀ u < (procs ++ [mkProc j c]).length,
          failsB env (((procs ++ [mkProc j c]).map ProcInfo.launchIdx).getD u 0) = false := by
        intro u hu
        have hu2 : u < ((procs ++ [mkProc j c]).map ProcInfo.launchIdx).length := by
          simpa using hu
        rw [← List.getD_append _ (rest.map JobSpec.idx) 0 u hu2, halls]
        apply hclean
        have hb1 : u < B := by omega
        calc u < B := hb1
          _ ≤ B * ((procs.length + (j :: rest).length) / B) := by
              rw [hdivtot, Nat.mul_succ]
              omega
      obtain ⟨hr, hev⟩ := checkBatch_clean env (procs ++ [mkProc j c]) hup
      rw [dispatchLoop_cons_full_clean fs env cfg B j rest procs c hc hfull hr]
      have hclean3 : ∀ u < B * ((([] : List ProcInfo).length + rest.length) / B),
          failsB env ((([] : List ProcInfo).map ProcInfo.launchIdx ++
            rest.map JobSpec.idx).getD u 0) = false := by
        intro u hu
        simp only [List.length_nil, List.map_nil, List.nil_append, Nat.zero_add] at hu ⊢
        have hlen2 : ((procs ++ [mkProc j c]).map ProcInfo.launchIdx).length = B := by
          simp [hP2]
          omega
        have hidx : (rest.map JobSpec.idx).getD u 0 =
            (((procs ++ [mkProc j c]).map ProcInfo.launchIdx ++
              rest.map JobSpec.idx)).getD (B + u) 0 := by
          rw [List.getD_append_right _ _ _ _ (by omega), hlen2]
          simp
        rw [hidx, halls]
        apply hclean
        rw [hdivtot, Nat.mul_succ]
        omega
      obtain ⟨e1, e2, e3, e4, e5, e6⟩ := ih [] (by simpa using hB) hclean3
      simp only [List.length_nil, List.map_nil, List.nil_append, Nat.zero_add] at e1 e2 e3 e4 e5 e6
      refine ⟨by simpa using e1, ?_, ?_, ?_, ?_, ?_⟩
      · simp only [launchSpecs_cons_launch, launchSpecs_cons_join, launchSpecs_append,
          hev, launchSpecs_map_completed, e2, List.nil_append]
        rfl
      · simp only [countJoins_cons_launch, countJoins_cons_join, countJoins_append, hev,
          countJoins_map_completed, e3, Nat.zero_add]
        have h1 : procs.length + (j :: rest).length + B - 1 = (rest.length + B - 1) + B := by
          rw [hsum]; omega
        rw [h1, Nat.add_div_right _ hB]
      · simp only [countCompleted_cons_launch, countCompleted_cons_join, countCompleted_append,
          hev, countCompleted_map_completed, e4, hP2, hfull, hdivtot, Nat.mul_succ]
        omega
      · simp only [printStderrEvents_cons_launch, printStderrEvents_cons_join,
          printStderrEvents_append, hev, printStderrEvents_of_completed, e5, List.nil_append]
      · intro hmod
        have hmod2 : rest.length % B ≠ 0 := by
          rw [hsum, Nat.add_mod_right] at hmod
          exact hmod
        obtain ⟨ps, hps1, hps2⟩ := e6 hmod2
        refine ⟨ps, ?_, ?_⟩
        · show (((Event.launch (mkProc j c) :: Event.joinBatch (procs ++ [mkProc j c]) ::
            checkBatchEvents env (procs ++ [mkProc j c])) ++
              (dispatchLoop fs env cfg B rest []).trace)).getLast? = some (Event.joinBatch ps)
          rw [List.getLast?_append, hps1]
          rfl
        · rw [hps2, hsum, Nat.add_mod_right]
    · -- the batch is not yet full: keep launching
      rw [dispatchLoop_cons_notfull fs env cfg B j rest procs c hc hfull]
      have hsum : (procs ++ [mkProc j c]).length + rest.length =
          procs.length + (j :: rest).length := by
        rw [hP2, hjl]; omega
      have hclean2 : ∀ u < B * (((procs ++ [mkProc j c]).length + rest.length) / B),
          failsB env (((procs ++ [mkProc j c]).map ProcInfo.launchIdx ++
            rest.map JobSpec.idx).getD u 0) = false := by
        intro u hu
        rw [halls]
        apply hclean
        rwa [← hsum]
      obtain ⟨e1, e2, e3, e4, e5, e6⟩ := ih (procs ++ [mkProc j c]) (by omega) hclean2
      refine ⟨by simpa using e1, ?_, ?_, ?_, ?_, ?_⟩
      · simp only [launchSpecs_cons_launch, e2]
        rfl
      · simp only [countJoins_cons_launch, e3]
        rw [hsum]
      · simp only [countCompleted_cons_launch, e4]
        rw [hsum]
      · simpa using e5
      · intro hmod
        obtain ⟨ps, hps1, hps2⟩ := e6 (by rwa [hsum])
        refine ⟨ps, ?_, ?_⟩
        · show (([Event.launch (mkProc j c)] ++
            (dispatchLoop fs env cfg B rest (procs ++ [mkProc j c])).trace)).getLast? =
              some (Event.joinBatch ps)
          rw [List.getLast?_append, hps1]
          rfl
        · rw [hps2, hsum]

theorem dispatchLoop_cons_err (fs : FileSystem) (env : ProcEnv) (cfg : HeadProbeConfig)
    (B : Nat) (j : JobSpec) (rest : List JobSpec) (procs : List ProcInfo) (e : PyError)
    (hc : buildHeadTemplate fs cfg j.hl j.hi j.did = .error e) :
    dispatchLoop fs env cfg B (j :: rest) procs = { trace := [], error := some e } := by
  simp only [dispatchLoop, hc]

theorem launchSpecs_checkBatch (env : ProcEnv) (ps : List ProcInfo) :
    launchSpecs (checkBatchEvents env ps) = [] :=
  launchSpecs_of_print _ (checkBatchEvents_print env ps)

theorem countJoins_checkBatch (env : ProcEnv) (ps : List ProcInfo) :
    countJoins (checkBatchEvents env ps) = 0 :=
  countJoins_of_print _ (checkBatchEvents_print env ps)

/-- In any run of the dispatch loop that ends without an exception, every
job was launched in order and exactly `ceil(total / B)` batches were
joined. -/
theorem dispatchLoop_error_none (fs : FileSystem) (env : ProcEnv) (cfg : HeadProbeConfig)
    (B : Nat) :
    ∀ (js : List JobSpec) (procs : List ProcInfo),
      procs.length < B →
      (dispatchLoop fs env cfg B js procs).error = none →
      launchSpecs (dispatchLoop fs env cfg B js procs).trace = js ∧
      countJoins (dispatchLoop fs env cfg B js procs).trace =
        (procs.length + js.length + B - 1) / B := by
  intro js
  induction js with
  | nil =>
    intro procs hp _
    have hB : 0 < B := Nat.lt_of_le_of_lt (Nat.zero_le _) hp
    rw [dispatchLoop_nil]
    cases procs with
    | nil =>
      refine ⟨by simp, ?_⟩
      simp [Nat.div_eq_of_lt (show B - 1 < B by omega)]
    | cons q tl =>
      refine ⟨by simp, ?_⟩
      have hlen : (q :: tl).length = tl.length + 1 := rfl
      have h1 : (q :: tl).length + ([] : List JobSpec).length + B - 1 = tl.length + B := by
        simp only [List.length_nil, List.length_cons]
        omega
      rw [h1, Nat.add_div_right _ hB, Nat.div_eq_of_lt (by omega)]
      simp
  | cons j rest ih =>
    intro procs hp herr
    have hB : 0 < B := Nat.lt_of_le_of_lt (Nat.zero_le _) hp
    have hjl : (j :: rest).length = rest.length + 1 := rfl
    cases hbt : buildHeadTemplate fs cfg j.hl j.hi j.did with
    | error e =>
      rw [dispatchLoop_cons_err fs env cfg B j rest procs e hbt] at herr
      simp at herr
    | ok c =>
      have hP2 : (procs ++ [mkProc j c]).length = procs.length + 1 := by simp
      by_cases hfull : procs.length + 1 = B
      · cases hr : checkBatchRaised env (procs ++ [mkProc j c]) with
        | true =>
          rw [dispatchLoop_cons_full_raised fs env cfg B j rest procs c hbt hfull hr] at herr
          simp at herr
        | false =>
          rw [dispatchLoop_cons_full_clean fs env cfg B j rest procs c hbt hfull hr] at herr ⊢
          have herr2 : (dispatchLoop fs env cfg B rest []).error = none := by simpa using herr
          obtain ⟨e1, e2⟩ := ih [] (by simpa using hB) herr2
          simp only [List.length_nil, Nat.zero_add] at e1 e2
          constructor
          · simp only [launchSpecs_cons_launch, launchSpecs_cons_join, launchSpecs_append,
              launchSpecs_checkBatch, e1, List.nil_append]
            rfl
          · simp only [countJoins_cons_launch, countJoins_cons_join, countJoins_append,
              countJoins_checkBatch, e2, Nat.zero_add]
            have h1 : procs.length + (j :: rest).length + B - 1 = (rest.length + B - 1) + B := by
              rw [hjl]; omega
            rw [h1, Nat.add_div_right _ hB]
      · rw [dispatchLoop_cons_notfull fs env cfg B j rest procs c hbt hfull] at herr ⊢
        have herr2 : (dispatchLoop fs env cfg B rest (procs ++ [mkProc j c])).error = none := by
          simpa using herr
        obtain ⟨e1, e2⟩ := ih (procs ++ [mkProc j c]) (by omega) herr2
        constructor
        · simp only [launchSpecs_cons_launch, e1]
          rfl
        · simp only [countJoins_cons_launch, e2]
          congr 1
          rw [hP2, hjl]
          omega

/-- Every join of the dispatch loop joins the whole set of pending
processes: one batch is fully joined before the next one starts. -/
theorem dispatchLoop_wholeBatch (fs : FileSystem) (env : ProcEnv) (cfg : HeadProbeConfig)
    (B : Nat) :
    ∀ (js : List JobSpec) (procs : List ProcInfo),
      wholeBatchJoins (dispatchLoop fs env cfg B js procs).trace procs.length = true := by
  intro js
  induction js with
  | nil =>
    intro procs
    rw [dispatchLoop_nil]
    cases procs with
    | nil => rfl
    | cons q tl => simp [wholeBatchJoins]
  | cons j rest ih =>
    intro procs
    cases hbt : buildHeadTemplate fs cfg j.hl j.hi j.did with
    | error e => rw [dispatchLoop_cons_err fs env cfg B j rest procs e hbt]; rfl
    | ok c =>
      have hP2 : (procs ++ [mkProc j c]).length = procs.length + 1 := by simp
      by_cases hfull : procs.length + 1 = B
      · cases hr : checkBatchRaised env (procs ++ [mkProc j c]) with
        | true =>
          rw [dispatchLoop_cons_full_raised fs env cfg B j rest procs c hbt hfull hr]
          simp only [wholeBatchJoins, hP2]
          have hpass := wholeBatchJoins_print_append
            (checkBatchEvents env (procs ++ [mkProc j c])) []
            (checkBatchEvents_print env _) 0
          simp only [List.append_nil] at hpass
          simp [hpass, wholeBatchJoins]
        | false =>
          rw [dispatchLoop_cons_full_clean fs env cfg B j rest procs c hbt hfull hr]
          simp only [wholeBatchJoins, hP2]
          rw [wholeBatchJoins_print_append _ _ (checkBatchEvents_print env _) 0]
          simpa using ih []
      · rw [dispatchLoop_cons_notfull fs env cfg B j rest procs c hbt hfull]
        simp only [wholeBatchJoins]
        have := ih (procs ++ [mkProc j c])
        rwa [hP2] at this

/-- The number of launched-but-not-joined processes never exceeds `B`
during the dispatch loop. -/
theorem dispatchLoop_maxConcurrent (fs : FileSystem) (env : ProcEnv) (cfg : HeadProbeConfig)
    (B : Nat) :
    ∀ (js : List JobSpec) (procs : List ProcInfo) (mx : Nat),
      procs.length < B → mx ≤ B →
      runningMax (dispatchLoop fs env cfg B js procs).trace procs.length mx ≤ B := by
  intro js
  induction js with
  | nil =>
    intro procs mx hp hmx
    rw [dispatchLoop_nil]
    cases procs with
    | nil => simpa [runningMax] using hmx
    | cons q tl => simpa [runningMax] using hmx
  | cons j rest ih =>
    intro procs mx hp hmx
    cases hbt : buildHeadTemplate fs cfg j.hl j.hi j.did with
    | error e =>
      rw [dispatchLoop_cons_err fs env cfg B j rest procs e hbt]
      simpa [runningMax] using hmx
    | ok c =>
      have hP2 : (procs ++ [mkProc j c]).length = procs.length + 1 := by simp
      by_cases hfull : procs.length + 1 = B
      · have hmx2 : max mx (procs.length + 1) ≤ B := by omega
        cases hr : checkBatchRaised env (procs ++ [mkProc j c]) with
        | true =>
          rw [dispatchLoop_cons_full_raised fs env cfg B j rest procs c hbt hfull hr]
          simp only [runningMax, hP2, Nat.sub_self]
          have hpass := runningMax_print_append
            (checkBatchEvents env (procs ++ [mkProc j c])) []
            (checkBatchEvents_print env _) 0 (max mx (procs.length + 1))
          simp only [List.append_nil] at hpass
          rw [hpass]
          simpa [runningMax] using hmx2
        | false =>
          rw [dispatchLoop_cons_full_clean fs env cfg B j rest procs c hbt hfull hr]
          simp only [runningMax, hP2, Nat.sub_self]
          rw [runningMax_print_append _ _ (checkBatchEvents_print env _) _ _]
          simpa using ih [] (max mx (procs.length + 1)) (by simpa using Nat.lt_of_le_of_lt (Nat.zero_le _) hp) hmx2
      · rw [dispatchLoop_cons_notfull fs env cfg B j rest procs c hbt hfull]
        simp only [runningMax]
        have := ih (procs ++ [mkProc j c]) (max mx (procs.length + 1)) (by omega) (by omega)
        rwa [hP2] at this

@[simp]
theorem countLaunches_nil : countLaunches [] = 0 := rfl

@[simp]
theorem countLaunches_cons_launch (p : ProcInfo) (t : List Event) :
    countLaunches (Event.launch p :: t) = countLaunches t + 1 := by
  simp [countLaunches]

@[simp]
theorem countLaunches_cons_join (ps : List ProcInfo) (t : List Event) :
    countLaunches (Event.joinBatch ps :: t) = countLaunches t := rfl

@[simp]
theorem countLaunches_cons_stderr (i : Nat) (ls : List String) (t : List Event) :
    countLaunches (Event.printStderr i ls :: t) = countLaunches t := rfl

@[simp]
theorem countLaunches_cons_completed (i : Nat) (t : List Event) :
    countLaunches (Event.printCompleted i :: t) = countLaunches t := rfl

theorem countLaunches_append (l t : List Event) :
    countLaunches (l ++ t) = countLaunches l + countLaunches t := by
  simp [countLaunches, launchSpecs_append]

theorem countLaunches_map_completed (ps : List ProcInfo) :
    countLaunches (ps.map fun q => Event.printCompleted q.launchIdx) = 0 := by
  simp [countLaunches, launchSpecs_map_completed]

/-- If the first failing process overall sits at position `w` of the
pending processes followed by the jobs still to launch, and the batch
containing position `w` fills up within the run, then the loop joins
batches up to and including that one (`w / B + 1` joins), prints the
stderr of exactly that process, raises `ValueError`, and launches only
the jobs of those batches. -/
theorem dispatchLoop_first_fail (fs : FileSystem) (env : ProcEnv) (cfg : HeadProbeConfig)
    (B : Nat) (htmpl : templatesOk fs cfg) :
    ∀ (js : List JobSpec) (procs : List ProcInfo) (w : Nat),
      procs.length < B →
      w < procs.length + js.length →
      failsB env ((procs.map ProcInfo.launchIdx ++ js.map JobSpec.idx).getD w 0) = true →
      (∀ u < w,
        failsB env ((procs.map ProcInfo.launchIdx ++ js.map JobSpec.idx).getD u 0) = false) →
      B * (w / B + 1) ≤ procs.length + js.length →
      (dispatchLoop fs env cfg B js procs).error = some .valueError ∧
      printStderrEvents (dispatchLoop fs env cfg B js procs).trace =
        [((procs.map ProcInfo.launchIdx ++ js.map JobSpec.idx).getD w 0,
          stderrLines env ((procs.map ProcInfo.launchIdx ++ js.map JobSpec.idx).getD w 0))] ∧
      countLaunches (dispatchLoop fs env cfg B js procs).trace =
        B * (w / B + 1) - procs.length ∧
      countJoins (dispatchLoop fs env cfg B js procs).trace = w / B + 1 := by
  intro js
  induction js with
  | nil =>
    intro procs w hp hw hfail hbefore hcomplete
    exfalso
    simp only [List.length_nil] at hcomplete
    rw [Nat.mul_succ] at hcomplete
    omega
  | cons j rest ih =>
    intro procs w hp hw hfail hbefore hcomplete
    have hB : 0 < B := Nat.lt_of_le_of_lt (Nat.zero_le _) hp
    obtain ⟨c, hc⟩ := buildHeadTemplate_ok fs cfg htmpl j.hl j.hi j.did
    have hP2 : (procs ++ [mkProc j c]).length = procs.length + 1 := by simp
    have hjl : (j :: rest).length = rest.length + 1 := rfl
    have halls : (procs ++ [mkProc j c]).map ProcInfo.launchIdx ++ rest.map JobSpec.idx
        = procs.map ProcInfo.launchIdx ++ (j :: rest).map JobSpec.idx := by
      simp [mkProc]
    have hmaplen : ((procs ++ [mkProc j c]).map ProcInfo.launchIdx).length =
        procs.length + 1 := by simp
    by_cases hfull : procs.length + 1 = B
    · by_cases hwB : w < B
      · -- the failing process is in the batch that has just filled
        have hgetw : ((procs ++ [mkProc j c]).map ProcInfo.launchIdx).getD w 0 =
            (procs.map ProcInfo.launchIdx ++ (j :: rest).map JobSpec.idx).getD w 0 := by
          rw [← halls]
          exact (List.getD_append _ _ _ _ (by omega)).symm
        have hfail2 : failsB env (((procs ++ [mkProc j c]).map ProcInfo.launchIdx).getD w 0)
            = true := by rw [hgetw]; exact hfail
        have hbefore2 : ∀ u < w,
            failsB env (((procs ++ [mkProc j c]).map ProcInfo.launchIdx).getD u 0) = false := by
          intro u hu
          have hgetu : ((procs ++ [mkProc j c]).map ProcInfo.launchIdx).getD u 0 =
              (procs.map ProcInfo.launchIdx ++ (j :: rest).map JobSpec.idx).getD u 0 := by
            rw [← halls]
            exact (List.getD_append _ _ _ _ (by omega)).symm
          rw [hgetu]
          exact hbefore u hu
        obtain ⟨hr, hev⟩ := checkBatch_first_fail env (procs ++ [mkProc j c]) w
          (by omega) hfail2 hbefore2
        rw [dispatchLoop_cons_full_raised fs env cfg B j rest procs c hc hfull hr]
        have hw0 : w / B = 0 := Nat.div_eq_of_lt hwB
        refine ⟨rfl, ?_, ?_, ?_⟩
        · simp only [printStderrEvents_cons_launch, printStderrEvents_cons_join, hev,
            printStderrEvents_append, printStderrEvents_of_completed, List.nil_append,
            printStderrEvents_cons_stderr, printStderrEvents_nil, hgetw]
        · simp only [countLaunches_cons_launch, countLaunches_cons_join, hev,
            countLaunches_append, countLaunches_map_completed, countLaunches_cons_stderr,
            countLaunches_nil, hw0]
          omega
        · simp only [countJoins_cons_launch, countJoins_cons_join, hev, countJoins_append,
            countJoins_map_completed, countJoins_cons_stderr, countJoins_nil, hw0]
      · -- this batch is clean; the failure sits in a later batch
        have hup : ∀ u < (procs ++ [mkProc j c]).length,
            failsB env (((procs ++ [mkProc j c]).map ProcInfo.launchIdx).getD u 0) = false := by
          intro u hu
          have hgetu : ((procs ++ [mkProc j c]).map ProcInfo.launchIdx).getD u 0 =
              (procs.map ProcInfo.launchIdx ++ (j :: rest).map JobSpec.idx).getD u 0 := by
            rw [← halls]
            exact (List.getD_append _ _ _ _ (by omega)).symm
          rw [hgetu]
          exact hbefore u (by omega)
        obtain ⟨hr, hev⟩ := checkBatch_clean env (procs ++ [mkProc j c]) hup
        rw [dispatchLoop_cons_full_clean fs env cfg B j rest procs c hc hfull hr]
        have hwsub : w - B + B = w := by omega
        have hdivw : w / B = (w - B) / B + 1 := by
          rw [← hwsub, Nat.add_div_right _ hB]
          simp [hwsub]
        have hidx : (rest.map JobSpec.idx).getD (w - B) 0 =
            (procs.map ProcInfo.launchIdx ++ (j :: rest).map JobSpec.idx).getD w 0 := by
          rw [← halls, List.getD_append_right _ _ _ _ (by omega), hmaplen]
          congr 1
          omega
        have hfail3 : failsB env ((([] : List ProcInfo).map ProcInfo.launchIdx ++
            rest.map JobSpec.idx).getD (w - B) 0) = true := by
          simp only [List.map_nil, List.nil_append]
          rw [hidx]
          exact hfail
        have hbefore3 : ∀ u < w - B,
            failsB env ((([] : List ProcInfo).map ProcInfo.launchIdx ++
              rest.map JobSpec.idx).getD u 0) = false := by
          intro u hu
          simp only [List.map_nil, List.nil_append]
          have hgetu : (rest.map JobSpec.idx).getD u 0 =
              (procs.map ProcInfo.launchIdx ++ (j :: rest).map JobSpec.idx).getD
                (procs.length + 1 + u) 0 := by
            rw [← halls, List.getD_append_right _ _ _ _ (by omega), hmaplen]
            congr 1
            omega
          rw [hgetu]
          exact hbefore _ (by omega)
        have hcomplete3 : B * ((w - B) / B + 1) ≤
            ([] : List ProcInfo).length + rest.length := by
          simp only [List.length_nil, Nat.zero_add]
          rw [hjl] at hcomplete
          rw [hdivw] at hcomplete
          rw [Nat.mul_succ] at hcomplete
          rw [Nat.mul_succ] at hcomplete ⊢
          omega
        obtain ⟨e1, e2, e3, e4⟩ := ih [] (w - B) (by simpa using hB)
          (by simp only [List.length_nil, Nat.zero_add]; rw [hjl] at hw; omega)
          hfail3 hbefore3 hcomplete3
        simp only [List.map_nil, List.nil_append, List.length_nil, Nat.zero_add,
          Nat.sub_zero] at e1 e2 e3 e4
        refine ⟨by simpa using e1, ?_, ?_, ?_⟩
        · simp only [printStderrEvents_cons_launch, printStderrEvents_cons_join,
            printStderrEvents_append, hev, printStderrEvents_of_completed, List.nil_append,
            e2, hidx]
        · simp only [countLaunches_cons_launch, countLaunches_cons_join, countLaunches_append,
            hev, countLaunches_map_completed, e3, Nat.zero_add]
          rw [hdivw]
          have hx : B * ((w - B) / B + 1 + 1) = B * ((w - B) / B + 1) + B := Nat.mul_succ B _
          rw [hx]
          omega
        · simp only [countJoins_cons_launch, countJoins_cons_join, countJoins_append, hev,
            countJoins_map_completed, e4, Nat.zero_add]
          omega
    · -- the batch is not yet full: keep launching
      rw [dispatchLoop_cons_notfull fs env cfg B j rest procs c hc hfull]
      have hsum : (procs ++ [mkProc j c]).length + rest.length =
          procs.length + (j :: rest).length := by
        rw [hP2, hjl]; omega
      have hfail2 : failsB env (((procs ++ [mkProc j c]).map ProcInfo.launchIdx ++
          rest.map JobSpec.idx).getD w 0) = true := by
        rw [halls]; exact hfail
      have hbefore2 : ∀ u < w,
          failsB env (((procs ++ [mkProc j c]).map ProcInfo.launchIdx ++
            rest.map JobSpec.idx).getD u 0) = false := by
        intro u hu
        rw [halls]
        exact hbefore u hu
      obtain ⟨e1, e2, e3, e4⟩ := ih (procs ++ [mkProc j c]) w (by omega)
        (by omega) hfail2 hbefore2 (by omega)
      rw [halls] at e2
      refine ⟨by simpa using e1, ?_, ?_, ?_⟩
      · simpa using e2
      · simp only [countLaunches_cons_launch, e3, hP2]
        rw [Nat.mul_succ] at hcomplete ⊢
        omega
      · simpa using e4

/-- In any run of the dispatch loop that ends without an exception,
exactly the given jobs were launched, in order (this needs no bound on
`B`). -/
theorem dispatchLoop_error_none_launches (fs : FileSystem) (env : ProcEnv)
    (cfg : HeadProbeConfig) (B : Nat) :
    ∀ (js : List JobSpec) (procs : List ProcInfo),
      (dispatchLoop fs env cfg B js procs).error = none →
      launchSpecs (dispatchLoop fs env cfg B js procs).trace = js := by
  intro js
  induction js with
  | nil =>
    intro procs _
    rw [dispatchLoop_nil]
    cases procs with
    | nil => simp
    | cons q tl => simp
  | cons j rest ih =>
    intro procs herr
    cases hbt : buildHeadTemplate fs cfg j.hl j.hi j.did with
    | error e =>
      rw [dispatchLoop_cons_err fs env cfg B j rest procs e hbt] at herr
      simp at herr
    | ok c =>
      by_cases hfull : procs.length + 1 = B
      · cases hr : checkBatchRaised env (procs ++ [mkProc j c]) with
        | true =>
          rw [dispatchLoop_cons_full_raised fs env cfg B j rest procs c hbt hfull hr] at herr
          simp at herr
        | false =>
          rw [dispatchLoop_cons_full_clean fs env cfg B j rest procs c hbt hfull hr] at herr ⊢
          have herr2 : (dispatchLoop fs env cfg B rest []).error = none := by simpa using herr
          simp only [launchSpecs_cons_launch, launchSpecs_cons_join, launchSpecs_append,
            launchSpecs_checkBatch, ih [] herr2, List.nil_append]
          rfl
      · rw [dispatchLoop_cons_notfull fs env cfg B j rest procs c hbt hfull] at herr ⊢
        have herr2 : (dispatchLoop fs env cfg B rest (procs ++ [mkProc j c])).error = none := by
          simpa using herr
        simp only [launchSpecs_cons_launch, ih (procs ++ [mkProc j c]) herr2]
        rfl

/-! Unfolding of the top-level probe_heads -/

theorem probeHeads_of_no_pending (fs : FileSystem) (env : ProcEnv) (cfg : HeadProbeConfig)
    (h : (headsToProbe fs cfg).length = 0) :
    probeHeads fs env cfg = { trace := [], error := none } := by
  simp [probeHeads, h]

theorem probeHeads_main (fs : FileSystem) (env : ProcEnv) (cfg : HeadProbeConfig)
    (h1 : (headsToProbe fs cfg).length ≠ 0) (h2 : cfg.devices.length ≠ 0) :
    probeHeads fs env cfg =
      dispatchLoop fs env cfg (cfg.devices.length * cfg.modelsPerGpu)
        (mkJobs (headsToProbe fs cfg)
          (deviceAssignment cfg.devices (headsToProbe fs cfg).length)) [] := by
  simp [probeHeads, h1, h2]

/-! The pending-head enumeration -/

theorem mem_gridPairs (hl hi : Nat) : (hl, hi) ∈ gridPairs ↔ hl < 12 ∧ hi < 12 := by
  simp [gridPairs]

theorem mem_headsToProbe (fs : FileSystem) (cfg : HeadProbeConfig) (hl hi : Nat) :
    (hl, hi) ∈ headsToProbe fs cfg ↔
      (hl < 12 ∧ hi < 12) ∧
        fs.rglobResults (headDirPath cfg hl hi) "model_1_*.pt" = [] := by
  simp [headsToProbe, List.mem_filter, mem_gridPairs, List.length_eq_zero]

theorem headsToProbe_all_markers (fs : FileSystem) (cfg : HeadProbeConfig)
    (h : ∀ a < 12, ∀ b < 12, fs.rglobResults (headDirPath cfg a b) "model_1_*.pt" ≠ []) :
    headsToProbe fs cfg = [] := by
  rw [headsToProbe, List.filter_eq_nil_iff]
  intro p hp
  obtain ⟨ha, hb⟩ := (mem_gridPairs p.1 p.2).mp hp
  simp [List.length_eq_zero]
  exact h p.1 ha p.2 hb

/-! Jobs and device assignment -/

theorem mkJobs_length (heads : List (Nat × Nat)) (dids : List Int) :
    (mkJobs heads dids).length = heads.length := by
  simp [mkJobs]

theorem mkJobs_map_idx (heads : List (Nat × Nat)) (dids : List Int) :
    (mkJobs heads dids).map JobSpec.idx = List.range heads.length := by
  rw [mkJobs, List.map_map]
  have hcomp : (JobSpec.idx ∘ fun e : Nat × (Nat × Nat) =>
      ({ idx := e.1, hl := e.2.1, hi := e.2.2, did := dids.getD e.1 0 } : JobSpec)) =
      Prod.fst := rfl
  rw [hcomp, List.enum_map_fst]

theorem mkJobs_map_did (heads : List (Nat × Nat)) (dids : List Int) :
    (mkJobs heads dids).map JobSpec.did =
      (List.range heads.length).map fun i => dids.getD i 0 := by
  rw [mkJobs, List.map_map, ← List.enum_map_fst heads, List.map_map]
  rfl

theorem deviceAssignment_length (devices : List Int) (n : Nat) :
    (deviceAssignment devices n).length = n := by
  simp [deviceAssignment]

theorem deviceAssignment_getD (devices : List Int) (n i : Nat) (h : i < n) :
    (deviceAssignment devices n).getD i 0 = devices.getD (i % devices.length) 0 := by
  rw [deviceAssignment, List.getD_eq_getElem _ _ (by simpa using h)]
  simp

theorem mkJobs_map_did_assignment (devices : List Int) (heads : List (Nat × Nat)) :
    (mkJobs heads (deviceAssignment devices heads.length)).map JobSpec.did =
      deviceAssignment devices heads.length := by
  rw [mkJobs_map_did]
  conv_rhs => rw [deviceAssignment]
  exact List.map_congr_left fun i hi =>
    deviceAssignment_getD devices heads.length i (List.mem_range.mp hi)

theorem getD_range (n u : Nat) (h : u < n) : (List.range n).getD u 0 = u := by
  rw [List.getD_eq_getElem _ _ (by simpa using h)]
  simp

/-! Sample tasks, configurations and oracles used in concrete checks -/

def expNLI : Experiment := { name := "NLI" }

def expPOS : Experiment := { name := "POS" }

/-- A filesystem in which exactly the listed pairs have no completion
marker, every `model_5*.pt` search yields `cks`, and no directory
exists. -/
def sampleFS (cfg : HeadProbeConfig) (pend : List (Nat × Nat)) (cks : List String) : FileSystem :=
  { rglobResults := fun d pat =>
      if pat = "model_1_*.pt" then
        if pend.any fun p => d = headDirPath cfg p.1 p.2 then [] else ["model_1_0.pt"]
      else if pat = "model_5*.pt" then cks
      else [],
    isDir := fun _ => false }

def cfgA : HeadProbeConfig :=
  { setting := .base, finetunedTask := expNLI, task := expPOS,
    modelsPerGpu := 1, devices := [0, 1], nClasses := 2 }

def cfgZ : HeadProbeConfig :=
  { setting := .base, finetunedTask := expNLI, task := expPOS,
    modelsPerGpu := 0, devices := [0], nClasses := 2 }

def cfgX : HeadProbeConfig :=
  { setting := .cross, finetunedTask := expNLI, task := expPOS,
    modelsPerGpu := 1, devices := [0], nClasses := 2 }

def envZero : ProcEnv := { retcode := fun _ => 0, stderr := fun _ => some "" }

def envFailAt (k : Nat) : ProcEnv :=
  { retcode := fun i => if i = k then 1 else 0,
    stderr := fun i => some ("boom" ++ toString i) }

def envOdd : ProcEnv :=
  { retcode := fun i => if i = 0 then 2 else -9, stderr := fun _ => some "" }

/-! Claim theorems -/

/-- Claim C1: for every (layer, head) pair of the 12x12 grid, probe_heads
schedules the pair as pending work iff no `model_1_*.pt` completion
marker exists under its head directory; in particular, when every pair
has a marker, probe_heads returns with no launch, no join, and no
error. -/
theorem probeHeads_schedules_iff_no_marker (fs : FileSystem) (env : ProcEnv)
    (cfg : HeadProbeConfig) (hl hi : Nat) (h1 : hl < 12) (h2 : hi < 12) :
    ((hl, hi) ∈ headsToProbe fs cfg ↔
      fs.rglobResults (headDirPath cfg hl hi) "model_1_*.pt" = []) ∧
    ((∀ a < 12, ∀ b < 12, fs.rglobResults (headDirPath cfg a b) "model_1_*.pt" ≠ []) →
      probeHeads fs env cfg = { trace := [], error := none }) := by
  constructor
  · rw [mem_headsToProbe]
    simp [h1, h2]
  · intro h
    exact probeHeads_of_no_pending fs env cfg (by rw [headsToProbe_all_markers fs cfg h]; rfl)

/-- Witness for C1 at a concrete filesystem with three pending heads. -/
theorem probeHeads_schedules_iff_no_marker_witness :
    ((0, 0) ∈ headsToProbe (sampleFS cfgA [(0, 0), (0, 1), (0, 2)] []) cfgA ↔
      (sampleFS cfgA [(0, 0), (0, 1), (0, 2)] []).rglobResults
        (headDirPath cfgA 0 0) "model_1_*.pt" = []) ∧
    ((∀ a < 12, ∀ b < 12, (sampleFS cfgA [(0, 0), (0, 1), (0, 2)] []).rglobResults
        (headDirPath cfgA a b) "model_1_*.pt" ≠ []) →
      probeHeads (sampleFS cfgA [(0, 0), (0, 1), (0, 2)] []) envZero cfgA =
        { trace := [], error := none }) :=
  probeHeads_schedules_iff_no_marker (sampleFS cfgA [(0, 0), (0, 1), (0, 2)] [])
    envZero cfgA 0 0 (by decide) (by decide)

/-- Claim C2: the device assigned to the pending job at index i is
`devices[i % len(devices)]`; on an error-free run the devices of the
launched jobs, in order, are exactly this assignment; with devices [0,1]
and 5 pending jobs the assignment is 0,1,0,1,0. -/
theorem probeHeads_round_robin_devices (fs : FileSystem) (env : ProcEnv)
    (cfg : HeadProbeConfig) (i : Nat)
    (hdev : cfg.devices ≠ [])
    (hi : i < (headsToProbe fs cfg).length) :
    (deviceAssignment cfg.devices (headsToProbe fs cfg).length).getD i 0 =
      cfg.devices.getD (i % cfg.devices.length) 0 ∧
    ((probeHeads fs env cfg).error = none →
      launchDids (probeHeads fs env cfg).trace =
        deviceAssignment cfg.devices (headsToProbe fs cfg).length) ∧
    deviceAssignment [0, 1] 5 = [0, 1, 0, 1, 0] := by
  refine ⟨deviceAssignment_getD _ _ _ hi, ?_, by decide⟩
  intro herr
  by_cases h0 : (headsToProbe fs cfg).length = 0
  · rw [probeHeads_of_no_pending fs env cfg h0, h0]
    simp [launchDids, deviceAssignment]
  · have hd : cfg.devices.length ≠ 0 := by
      intro hh
      exact hdev (List.length_eq_zero.mp hh)
    rw [probeHeads_main fs env cfg h0 hd] at herr ⊢
    rw [launchDids, dispatchLoop_error_none_launches fs env cfg _ _ _ herr,
      mkJobs_map_did_assignment]

/-- Witness for C2 at a concrete filesystem with three pending heads. -/
theorem probeHeads_round_robin_devices_witness :
    (deviceAssignment cfgA.devices
        (headsToProbe (sampleFS cfgA [(0, 0), (0, 1), (0, 2)] []) cfgA).length).getD 1 0 =
      cfgA.devices.getD (1 % cfgA.devices.length) 0 ∧
    ((probeHeads (sampleFS cfgA [(0, 0), (0, 1), (0, 2)] []) envZero cfgA).error = none →
      launchDids (probeHeads (sampleFS cfgA [(0, 0), (0, 1), (0, 2)] []) envZero cfgA).trace =
        deviceAssignment cfgA.devices
          (headsToProbe (sampleFS cfgA [(0, 0), (0, 1), (0, 2)] []) cfgA).length) ∧
    deviceAssignment [0, 1] 5 = [0, 1, 0, 1, 0] :=
  probeHeads_round_robin_devices (sampleFS cfgA [(0, 0), (0, 1), (0, 2)] [])
    envZero cfgA 1 (by decide) (by decide)

/-- Counterexample for C3: with `models_per_gpu = 0` and one device the
claimed bound `len(devices) * models_per_gpu = 0` on concurrently
launched processes is exceeded — both pending jobs are launched before
any join. -/
theorem probeHeads_batch_bound_counterexample :
    ¬ maxConcurrent (probeHeads (sampleFS cfgZ [(0, 0), (0, 1)] []) envZero cfgZ).trace ≤
      cfgZ.devices.length * cfgZ.modelsPerGpu := by decide

/-- Claim C3 (amended): provided the device list is nonempty and
models_per_gpu ≥ 1, the number of concurrently launched, not yet joined
subprocesses never exceeds B = len(devices) * models_per_gpu, every join
takes the entire pending batch (one batch is fully joined before any
process of the next batch is launched), and a run that completes without
an exception performs exactly ceil(n / B) batch joins for n pending
jobs. -/
theorem probeHeads_batching_invariant (fs : FileSystem) (env : ProcEnv)
    (cfg : HeadProbeConfig)
    (hdev : cfg.devices ≠ []) (hmpg : 1 ≤ cfg.modelsPerGpu) :
    maxConcurrent (probeHeads fs env cfg).trace ≤
      cfg.devices.length * cfg.modelsPerGpu ∧
    wholeBatchJoins (probeHeads fs env cfg).trace 0 = true ∧
    ((probeHeads fs env cfg).error = none →
      countJoins (probeHeads fs env cfg).trace =
        ((headsToProbe fs cfg).length + cfg.devices.length * cfg.modelsPerGpu - 1) /
          (cfg.devices.length * cfg.modelsPerGpu)) := by
  have hB : 0 < cfg.devices.length * cfg.modelsPerGpu :=
    Nat.mul_pos (List.length_pos.mpr hdev) hmpg
  by_cases h0 : (headsToProbe fs cfg).length = 0
  · rw [probeHeads_of_no_pending fs env cfg h0]
    refine ⟨by simp [maxConcurrent, runningMax], rfl, ?_⟩
    intro _
    rw [h0]
    simp [Nat.div_eq_of_lt
      (show cfg.devices.length * cfg.modelsPerGpu - 1 <
        cfg.devices.length * cfg.modelsPerGpu by omega)]
  · have hd : cfg.devices.length ≠ 0 := fun hh => hdev (List.length_eq_zero.mp hh)
    rw [probeHeads_main fs env cfg h0 hd]
    refine ⟨?_, ?_, ?_⟩
    · have hmax := dispatchLoop_maxConcurrent fs env cfg
        (cfg.devices.length * cfg.modelsPerGpu)
        (mkJobs (headsToProbe fs cfg)
          (deviceAssignment cfg.devices (headsToProbe fs cfg).length)) [] 0
        (by simpa using hB) (Nat.zero_le _)
      simpa [maxConcurrent] using hmax
    · have hwb := dispatchLoop_wholeBatch fs env cfg
        (cfg.devices.length * cfg.modelsPerGpu)
        (mkJobs (headsToProbe fs cfg)
          (deviceAssignment cfg.devices (headsToProbe fs cfg).length)) []
      simpa using hwb
    · intro herr
      obtain ⟨_, hcnt⟩ := dispatchLoop_error_none fs env cfg
        (cfg.devices.length * cfg.modelsPerGpu)
        (mkJobs (headsToProbe fs cfg)
          (deviceAssignment cfg.devices (headsToProbe fs cfg).length)) []
        (by simpa using hB) herr
      rw [hcnt]
      simp [mkJobs_length]

/-- Witness for the amended C3 at a concrete run with three pending jobs
and batch size 2. -/
theorem probeHeads_batching_invariant_witness :
    maxConcurrent (probeHeads (sampleFS cfgA [(0, 0), (0, 1), (0, 2)] []) envZero cfgA).trace ≤
      cfgA.devices.length * cfgA.modelsPerGpu ∧
    wholeBatchJoins
      (probeHeads (sampleFS cfgA [(0, 0), (0, 1), (0, 2)] []) envZero cfgA).trace 0 = true ∧
    ((probeHeads (sampleFS cfgA [(0, 0), (0, 1), (0, 2)] []) envZero cfgA).error = none →
      countJoins (probeHeads (sampleFS cfgA [(0, 0), (0, 1), (0, 2)] []) envZero cfgA).trace =
        ((headsToProbe (sampleFS cfgA [(0, 0), (0, 1), (0, 2)] []) cfgA).length +
            cfgA.devices.length * cfgA.modelsPerGpu - 1) /
          (cfgA.devices.length * cfgA.modelsPerGpu)) :=
  probeHeads_batching_invariant (sampleFS cfgA [(0, 0), (0, 1), (0, 2)] [])
    envZero cfgA (by decide) (by decide)

theorem failsB_iff (env : ProcEnv) (k : Nat) :
    failsB env k = true ↔ env.retcode k = 1 ∧ env.stderr k ≠ none := by
  simp [failsB, Option.isSome_iff_ne_none, and_comm]

theorem failsB_eq_false (env : ProcEnv) (k : Nat)
    (h : ¬ (env.retcode k = 1 ∧ env.stderr k ≠ none)) : failsB env k = false := by
  rw [← Bool.not_eq_true, failsB_iff]
  exact h

/-- At the top level (no pending processes), position `u` of the
process-plus-job index list is just the launch index `u`. -/
theorem topAlls_getD (fs : FileSystem) (cfg : HeadProbeConfig) (dids : List Int) (u : Nat)
    (h : u < (headsToProbe fs cfg).length) :
    (([] : List ProcInfo).map ProcInfo.launchIdx ++
      (mkJobs (headsToProbe fs cfg) dids).map JobSpec.idx).getD u 0 = u := by
  simp only [List.map_nil, List.nil_append, mkJobs_map_idx]
  exact getD_range _ u h

/-- Counterexample for C4: with batch size 2 and three pending jobs, the
subprocess at launch index 2 — the final, partial batch — exits with code
1 and captured stderr, yet the run prints no stderr and raises no
error. -/
theorem probeHeads_code1_counterexample :
    (envFailAt 2).retcode 2 = 1 ∧
    (envFailAt 2).stderr 2 ≠ none ∧
    2 ∈ (launchSpecs
        (probeHeads (sampleFS cfgA [(0, 0), (0, 1), (0, 2)] []) (envFailAt 2) cfgA).trace).map
      JobSpec.idx ∧
    (probeHeads (sampleFS cfgA [(0, 0), (0, 1), (0, 2)] []) (envFailAt 2) cfgA).error = none ∧
    printStderrEvents
      (probeHeads (sampleFS cfgA [(0, 0), (0, 1), (0, 2)] []) (envFailAt 2) cfgA).trace = [] := by
  decide

/-- Claim C4 (amended): if the subprocess at launch index j is the first
launched process to exit with return code 1 (with captured stderr) and j
belongs to a full batch — `B * (j / B + 1) ≤ n`, so j's batch fills and
is checked — then after joining j's batch the dispatcher prints j's
captured stderr as lines and raises ValueError, having performed exactly
`j / B + 1` batch joins and launched only the `B * (j / B + 1)` jobs of
the batches up through j's, none further.  A code-1 exit in the final
partial batch does not abort (see the counterexample). -/
theorem probeHeads_code1_full_batch_aborts (fs : FileSystem) (env : ProcEnv)
    (cfg : HeadProbeConfig) (j : Nat)
    (hdev : cfg.devices ≠ []) (hmpg : 1 ≤ cfg.modelsPerGpu)
    (htmpl : templatesOk fs cfg)
    (hcode : env.retcode j = 1) (hstderr : env.stderr j ≠ none)
    (hfirst : ∀ k < j, ¬ (env.retcode k = 1 ∧ env.stderr k ≠ none))
    (hfull : cfg.devices.length * cfg.modelsPerGpu *
        (j / (cfg.devices.length * cfg.modelsPerGpu) + 1) ≤ (headsToProbe fs cfg).length) :
    (probeHeads fs env cfg).error = some .valueError ∧
    printStderrEvents (probeHeads fs env cfg).trace = [(j, stderrLines env j)] ∧
    countLaunches (probeHeads fs env cfg).trace =
      cfg.devices.length * cfg.modelsPerGpu *
        (j / (cfg.devices.length * cfg.modelsPerGpu) + 1) ∧
    countJoins (probeHeads fs env cfg).trace =
      j / (cfg.devices.length * cfg.modelsPerGpu) + 1 := by
  have hB : 0 < cfg.devices.length * cfg.modelsPerGpu :=
    Nat.mul_pos (List.length_pos.mpr hdev) hmpg
  have hjlt : j < cfg.devices.length * cfg.modelsPerGpu *
      (j / (cfg.devices.length * cfg.modelsPerGpu) + 1) := by
    rw [Nat.mul_succ]
    have h1 := Nat.div_add_mod j (cfg.devices.length * cfg.modelsPerGpu)
    have h2 := Nat.mod_lt j hB
    omega
  have hjn : j < (headsToProbe fs cfg).length := Nat.lt_of_lt_of_le hjlt hfull
  have h0 : (headsToProbe fs cfg).length ≠ 0 := by omega
  have hd : cfg.devices.length ≠ 0 := fun hh => hdev (List.length_eq_zero.mp hh)
  rw [probeHeads_main fs env cfg h0 hd]
  have hgetsj := topAlls_getD fs cfg
    (deviceAssignment cfg.devices (headsToProbe fs cfg).length) j hjn
  obtain ⟨e1, e2, e3, e4⟩ := dispatchLoop_first_fail fs env cfg
    (cfg.devices.length * cfg.modelsPerGpu) htmpl
    (mkJobs (headsToProbe fs cfg)
      (deviceAssignment cfg.devices (headsToProbe fs cfg).length)) [] j
    (by simpa using hB)
    (by simp only [List.length_nil, Nat.zero_add, mkJobs_length]; exact hjn)
    (by rw [hgetsj, failsB_iff]; exact ⟨hcode, hstderr⟩)
    (by
      intro u hu
      rw [topAlls_getD fs cfg _ u (by omega)]
      exact failsB_eq_false env u (hfirst u hu))
    (by simp only [List.length_nil, Nat.zero_add, mkJobs_length]; exact hfull)
  rw [hgetsj] at e2
  simp only [List.length_nil, Nat.sub_zero] at e3
  exact ⟨e1, e2, e3, e4⟩

/-- Witness for the amended C4 at a concrete run: batch size 2, four
pending jobs, the job at launch index 1 fails. -/
theorem probeHeads_code1_full_batch_aborts_witness :
    (probeHeads (sampleFS cfgA [(0, 0), (0, 1), (0, 2), (0, 3)] [])
      (envFailAt 1) cfgA).error = some .valueError ∧
    printStderrEvents (probeHeads (sampleFS cfgA [(0, 0), (0, 1), (0, 2), (0, 3)] [])
      (envFailAt 1) cfgA).trace = [(1, stderrLines (envFailAt 1) 1)] ∧
    countLaunches (probeHeads (sampleFS cfgA [(0, 0), (0, 1), (0, 2), (0, 3)] [])
      (envFailAt 1) cfgA).trace =
      cfgA.devices.length * cfgA.modelsPerGpu * (1 / (cfgA.devices.length * cfgA.modelsPerGpu) + 1) ∧
    countJoins (probeHeads (sampleFS cfgA [(0, 0), (0, 1), (0, 2), (0, 3)] [])
      (envFailAt 1) cfgA).trace = 1 / (cfgA.devices.length * cfgA.modelsPerGpu) + 1 :=
  probeHeads_code1_full_batch_aborts (sampleFS cfgA [(0, 0), (0, 1), (0, 2), (0, 3)] [])
    (envFailAt 1) cfgA 1 (by decide) (by decide) (by decide) (by decide) (by decide)
    (by decide) (by decide)

/-- Claim C5: when the pending count n is not a multiple of the batch
size B, the final partial batch is waited on — the trace ends with its
join of `n % B` processes — but its return codes and stderr are never
inspected: provided every full-batch process is clean, the run raises
nothing and prints no stderr, whatever the final batch's processes (in
particular one exiting with code 1) return. -/
theorem probeHeads_final_partial_batch_unchecked (fs : FileSystem) (env : ProcEnv)
    (cfg : HeadProbeConfig)
    (hdev : cfg.devices ≠ []) (hmpg : 1 ≤ cfg.modelsPerGpu)
    (htmpl : templatesOk fs cfg)
    (hcleanfull : ∀ k < cfg.devices.length * cfg.modelsPerGpu *
        ((headsToProbe fs cfg).length / (cfg.devices.length * cfg.modelsPerGpu)),
      ¬ (env.retcode k = 1 ∧ env.stderr k ≠ none))
    (hpart : (headsToProbe fs cfg).length % (cfg.devices.length * cfg.modelsPerGpu) ≠ 0) :
    (probeHeads fs env cfg).error = none ∧
    printStderrEvents (probeHeads fs env cfg).trace = [] ∧
    countLaunches (probeHeads fs env cfg).trace = (headsToProbe fs cfg).length ∧
    (∃ ps, (probeHeads fs env cfg).trace.getLast? = some (Event.joinBatch ps) ∧
      ps.length =
        (headsToProbe fs cfg).length % (cfg.devices.length * cfg.modelsPerGpu)) := by
  have hB : 0 < cfg.devices.length * cfg.modelsPerGpu :=
    Nat.mul_pos (List.length_pos.mpr hdev) hmpg
  have h0 : (headsToProbe fs cfg).length ≠ 0 := by
    intro hh
    rw [hh] at hpart
    simp at hpart
  have hd : cfg.devices.length ≠ 0 := fun hh => hdev (List.length_eq_zero.mp hh)
  rw [probeHeads_main fs env cfg h0 hd]
  obtain ⟨e1, e2, e3, e4, e5, e6⟩ := dispatchLoop_clean fs env cfg
    (cfg.devices.length * cfg.modelsPerGpu) htmpl
    (mkJobs (headsToProbe fs cfg)
      (deviceAssignment cfg.devices (headsToProbe fs cfg).length)) []
    (by simpa using hB)
    (by
      intro u hu
      simp only [List.length_nil, Nat.zero_add, mkJobs_length] at hu
      rw [topAlls_getD fs cfg _ u
        (Nat.lt_of_lt_of_le hu (by
          exact le_of_eq_of_le rfl (by
            have := Nat.div_mul_le_self (headsToProbe fs cfg).length
              (cfg.devices.length * cfg.modelsPerGpu)
            rw [Nat.mul_comm]
            exact this)))]
      exact failsB_eq_false env u (hcleanfull u hu))
  refine ⟨e1, e5, ?_, ?_⟩
  · rw [countLaunches, e2, mkJobs_length]
  · have := e6 (by simpa [mkJobs_length] using hpart)
    simpa [mkJobs_length] using this

/-- Witness for C5 at a concrete run: batch size 2, three pending jobs,
the final-batch job at launch index 2 exits with code 1. -/
theorem probeHeads_final_partial_batch_unchecked_witness :
    (probeHeads (sampleFS cfgA [(0, 0), (0, 1), (0, 2)] []) (envFailAt 2) cfgA).error = none ∧
    printStderrEvents
      (probeHeads (sampleFS cfgA [(0, 0), (0, 1), (0, 2)] []) (envFailAt 2) cfgA).trace = [] ∧
    countLaunches
      (probeHeads (sampleFS cfgA [(0, 0), (0, 1), (0, 2)] []) (envFailAt 2) cfgA).trace =
      (headsToProbe (sampleFS cfgA [(0, 0), (0, 1), (0, 2)] []) cfgA).length ∧
    (∃ ps, (probeHeads (sampleFS cfgA [(0, 0), (0, 1), (0, 2)] [])
        (envFailAt 2) cfgA).trace.getLast? = some (Event.joinBatch ps) ∧
      ps.length = (headsToProbe (sampleFS cfgA [(0, 0), (0, 1), (0, 2)] []) cfgA).length %
        (cfgA.devices.length * cfgA.modelsPerGpu)) :=
  probeHeads_final_partial_batch_unchecked (sampleFS cfgA [(0, 0), (0, 1), (0, 2)] [])
    (envFailAt 2) cfgA (by decide) (by decide) (by decide) (by decide) (by decide)

/-- Claim C9: a joined subprocess whose return code is neither 0 nor 1
(for instance 2, or a negative signal code) is treated exactly like a
success: when no process returns 1, every batch joins cleanly, each
checked process gets its `completed` message, no stderr is printed and
nothing is raised. -/
theorem probeHeads_non_one_codes_success (fs : FileSystem) (env : ProcEnv)
    (cfg : HeadProbeConfig)
    (hdev : cfg.devices ≠ []) (hmpg : 1 ≤ cfg.modelsPerGpu)
    (htmpl : templatesOk fs cfg)
    (hcodes : ∀ k < (headsToProbe fs cfg).length, env.retcode k ≠ 1) :
    (probeHeads fs env cfg).error = none ∧
    printStderrEvents (probeHeads fs env cfg).trace = [] ∧
    countCompleted (probeHeads fs env cfg).trace =
      cfg.devices.length * cfg.modelsPerGpu *
        ((headsToProbe fs cfg).length / (cfg.devices.length * cfg.modelsPerGpu)) ∧
    countJoins (probeHeads fs env cfg).trace =
      ((headsToProbe fs cfg).length + cfg.devices.length * cfg.modelsPerGpu - 1) /
        (cfg.devices.length * cfg.modelsPerGpu) ∧
    countLaunches (probeHeads fs env cfg).trace = (headsToProbe fs cfg).length := by
  have hB : 0 < cfg.devices.length * cfg.modelsPerGpu :=
    Nat.mul_pos (List.length_pos.mpr hdev) hmpg
  by_cases h0 : (headsToProbe fs cfg).length = 0
  · rw [probeHeads_of_no_pending fs env cfg h0, h0]
    refine ⟨rfl, rfl, by simp, ?_, by simp⟩
    simp [Nat.div_eq_of_lt
      (show cfg.devices.length * cfg.modelsPerGpu - 1 <
        cfg.devices.length * cfg.modelsPerGpu by omega)]
  · have hd : cfg.devices.length ≠ 0 := fun hh => hdev (List.length_eq_zero.mp hh)
    have hmul : cfg.devices.length * cfg.modelsPerGpu *
        ((headsToProbe fs cfg).length / (cfg.devices.length * cfg.modelsPerGpu)) ≤
        (headsToProbe fs cfg).length := by
      rw [Nat.mul_comm]
      exact Nat.div_mul_le_self _ _
    rw [probeHeads_main fs env cfg h0 hd]
    obtain ⟨e1, e2, e3, e4, e5, e6⟩ := dispatchLoop_clean fs env cfg
      (cfg.devices.length * cfg.modelsPerGpu) htmpl
      (mkJobs (headsToProbe fs cfg)
        (deviceAssignment cfg.devices (headsToProbe fs cfg).length)) []
      (by simpa using hB)
      (by
        intro u hu
        simp only [List.length_nil, Nat.zero_add, mkJobs_length] at hu
        rw [topAlls_getD fs cfg _ u (Nat.lt_of_lt_of_le hu hmul)]
        exact failsB_eq_false env u fun hc =>
          hcodes u (Nat.lt_of_lt_of_le hu hmul) hc.1)
    refine ⟨e1, e5, ?_, ?_, ?_⟩
    · simpa [mkJobs_length] using e4
    · simpa [mkJobs_length] using e3
    · rw [countLaunches, e2, mkJobs_length]

/-- Witness for C9 at a concrete run whose processes exit with codes 2
and -9. -/
theorem probeHeads_non_one_codes_success_witness :
    (probeHeads (sampleFS cfgA [(0, 0), (0, 1), (0, 2)] []) envOdd cfgA).error = none ∧
    printStderrEvents
      (probeHeads (sampleFS cfgA [(0, 0), (0, 1), (0, 2)] []) envOdd cfgA).trace = [] ∧
    countCompleted
      (probeHeads (sampleFS cfgA [(0, 0), (0, 1), (0, 2)] []) envOdd cfgA).trace =
      cfgA.devices.length * cfgA.modelsPerGpu *
        ((headsToProbe (sampleFS cfgA [(0, 0), (0, 1), (0, 2)] []) cfgA).length /
          (cfgA.devices.length * cfgA.modelsPerGpu)) ∧
    countJoins (probeHeads (sampleFS cfgA [(0, 0), (0, 1), (0, 2)] []) envOdd cfgA).trace =
      ((headsToProbe (sampleFS cfgA [(0, 0), (0, 1), (0, 2)] []) cfgA).length +
          cfgA.devices.length * cfgA.modelsPerGpu - 1) /
        (cfgA.devices.length * cfgA.modelsPerGpu) ∧
    countLaunches (probeHeads (sampleFS cfgA [(0, 0), (0, 1), (0, 2)] []) envOdd cfgA).trace =
      (headsToProbe (sampleFS cfgA [(0, 0), (0, 1), (0, 2)] []) cfgA).length :=
  probeHeads_non_one_codes_success (sampleFS cfgA [(0, 0), (0, 1), (0, 2)] [])
    envOdd cfgA (by decide) (by decide) (by decide) (by decide)

/-- A filesystem in which every directory exists and every glob is
empty. -/
def fsDirAll : FileSystem := { rglobResults := fun _ _ => [], isDir := fun _ => true }

set_option maxRecDepth 8192 in
/-- Claim C6: probe_model takes the resume decision and the printed task
info from the module-level `setting`, not from its own finetuned_setting
parameter: two calls with identical arguments but different module-level
setting build different command lines and print different task info; in
particular with module-level BASE and finetuned_setting cross the
command carries no resume flags. -/
theorem probeModel_reads_global_setting :
    (probeModel (sampleFS cfgA [] ["checkpoint/NLI_cross/model_5.pt"]) envZero
        .base .cross expNLI .multi expPOS [0] 2).launchedCmd ≠
      (probeModel (sampleFS cfgA [] ["checkpoint/NLI_cross/model_5.pt"]) envZero
        .cross .cross expNLI .multi expPOS [0] 2).launchedCmd ∧
    (probeModel (sampleFS cfgA [] ["checkpoint/NLI_cross/model_5.pt"]) envZero
        .base .cross expNLI .multi expPOS [0] 2).printed ≠
      (probeModel (sampleFS cfgA [] ["checkpoint/NLI_cross/model_5.pt"]) envZero
        .cross .cross expNLI .multi expPOS [0] 2).printed ∧
    (probeModel (sampleFS cfgA [] ["checkpoint/NLI_cross/model_5.pt"]) envZero
        .base .cross expNLI .multi expPOS [0] 2).launchedCmd =
      some (modelProbeCmdCore .cross expNLI .multi expPOS [0] 2 "") := by
  decide

/-- Claim C7: when the target checkpoint directory already exists,
probe_model prints the skip message and returns with no launch and no
error. -/
theorem probeModel_skips_existing_dir (fs : FileSystem) (env : ProcEnv)
    (g fset : LingualSetting) (ftask : Experiment) (dset : LingualSetting)
    (dtask : Experiment) (devs : List Int) (ncls : Nat)
    (h : fs.isDir (modelCheckpointDir fset ftask dset dtask) = true) :
    probeModel fs env g fset ftask dset dtask devs ncls =
      { printed := [modelCheckpointDir fset ftask dset dtask ++ " exists, skipping " ++
          taskInfoStr g ftask dset dtask],
        launchedCmd := none, waited := false, error := none } := by
  simp [probeModel, h]

/-- Witness for C7 at a filesystem in which the directory exists. -/
theorem probeModel_skips_existing_dir_witness :
    probeModel fsDirAll envZero .cross .cross expNLI .multi expPOS [0] 2 =
      { printed := [modelCheckpointDir .cross expNLI .multi expPOS ++ " exists, skipping " ++
          taskInfoStr .cross expNLI .multi expPOS],
        launchedCmd := none, waited := false, error := none } :=
  probeModel_skips_existing_dir fsDirAll envZero .cross .cross expNLI .multi expPOS [0] 2 rfl

/-- Counterexample for C8: the target directory does not exist, yet with
a non-BASE module-level setting and no `model_5*.pt` file probe_model
raises IndexError and launches no subprocess at all. -/
theorem probeModel_missing_ckpt_counterexample :
    (sampleFS cfgA [] []).isDir (modelCheckpointDir .cross expNLI .multi expPOS) = false ∧
    (probeModel (sampleFS cfgA [] []) envZero
      .cross .cross expNLI .multi expPOS [0] 2).launchedCmd = none ∧
    (probeModel (sampleFS cfgA [] []) envZero
      .cross .cross expNLI .multi expPOS [0] 2).error = some .indexError := by
  decide

/-- Claim C8 (amended): when the target checkpoint directory does not
exist and the finetuned-checkpoint selection succeeds (the module-level
setting is BASE, or a `model_5*.pt` file exists), probe_model launches
exactly one subprocess, waits for it, and returns normally, with an
outcome independent of the subprocess oracle — no exit code is ever
read. -/
theorem probeModel_single_launch_no_check (fs : FileSystem)
    (g fset : LingualSetting) (ftask : Experiment) (dset : LingualSetting)
    (dtask : Experiment) (devs : List Int) (ncls : Nat)
    (hdir : fs.isDir (modelCheckpointDir fset ftask dset dtask) = false)
    (hck : g = .base ∨
      fs.rglobResults (finetunedDirPath ftask.name fset) "model_5*.pt" ≠ []) :
    ∃ cmd, ∀ env : ProcEnv,
      probeModel fs env g fset ftask dset dtask devs ncls =
        { printed := [taskInfoStr g ftask dset dtask],
          launchedCmd := some cmd, waited := true, error := none } := by
  by_cases hg : g = .base
  · exact ⟨modelProbeCmdCore fset ftask dset dtask devs ncls "", fun env => by
      simp [probeModel, hdir, hg]⟩
  · rcases hck with hck | hne
    · exact absurd hck hg
    · cases hrg : fs.rglobResults (finetunedDirPath ftask.name fset) "model_5*.pt" with
      | nil => exact absurd hrg hne
      | cons c tl =>
        exact ⟨modelProbeCmdCore fset ftask dset dtask devs ncls
          ("--resume --model_ckpt " ++ c ++ " "), fun env => by
          simp [probeModel, hdir, hg, hrg]⟩

/-- Witness for the amended C8 at a filesystem holding one finetuned
checkpoint. -/
theorem probeModel_single_launch_no_check_witness :
    ∃ cmd, ∀ env : ProcEnv,
      probeModel (sampleFS cfgA [] ["checkpoint/NLI_cross/model_5.pt"]) env
          .cross .cross expNLI .multi expPOS [0] 2 =
        { printed := [taskInfoStr .cross expNLI .multi expPOS],
          launchedCmd := some cmd, waited := true, error := none } :=
  probeModel_single_launch_no_check (sampleFS cfgA [] ["checkpoint/NLI_cross/model_5.pt"])
    .cross .cross expNLI .multi expPOS [0] 2 (by decide) (by decide)

/-- Claim C10: with a non-BASE setting both probe functions take
`rglob('model_5*.pt')[0]` unguarded: a nonempty match list makes the
selection succeed, splicing its first element into the command, while an
empty one makes the call fail with IndexError before it launches any
subprocess. -/
theorem finetuned_ckpt_unguarded_first (fs : FileSystem) (env : ProcEnv)
    (cfg : HeadProbeConfig) (hl hi : Nat) (did : Int)
    (g fset : LingualSetting) (ftask : Experiment) (dset : LingualSetting)
    (dtask : Experiment) (devs : List Int) (ncls : Nat)
    (hset : cfg.setting ≠ .base) (hg : g ≠ .base) :
    (∀ c tl, fs.rglobResults (finetunedDirPath cfg.finetunedTask.name cfg.setting)
        "model_5*.pt" = c :: tl →
      buildHeadTemplate fs cfg hl hi did =
        .ok (headProbeCmdCore cfg hl hi did ("--resume --model_ckpt " ++ c ++ " "))) ∧
    (fs.rglobResults (finetunedDirPath cfg.finetunedTask.name cfg.setting)
        "model_5*.pt" = [] →
      buildHeadTemplate fs cfg hl hi did = .error .indexError) ∧
    (fs.rglobResults (finetunedDirPath cfg.finetunedTask.name cfg.setting)
        "model_5*.pt" = [] →
      headsToProbe fs cfg ≠ [] → cfg.devices ≠ [] →
      (probeHeads fs env cfg).error = some .indexError ∧
      countLaunches (probeHeads fs env cfg).trace = 0) ∧
    (fs.isDir (modelCheckpointDir fset ftask dset dtask) = false →
      fs.rglobResults (finetunedDirPath ftask.name fset) "model_5*.pt" = [] →
      (probeModel fs env g fset ftask dset dtask devs ncls).error = some .indexError ∧
      (probeModel fs env g fset ftask dset dtask devs ncls).launchedCmd = none) := by
  refine ⟨?_, ?_, ?_, ?_⟩
  · intro c tl h
    simp [buildHeadTemplate, hset, h]
  · intro h
    simp [buildHeadTemplate, hset, h]
  · intro h hne hdev
    have h0 : (headsToProbe fs cfg).length ≠ 0 := fun hh => hne (List.length_eq_zero.mp hh)
    have hd : cfg.devices.length ≠ 0 := fun hh => hdev (List.length_eq_zero.mp hh)
    rw [probeHeads_main fs env cfg h0 hd]
    cases hjobs : mkJobs (headsToProbe fs cfg)
        (deviceAssignment cfg.devices (headsToProbe fs cfg).length) with
    | nil =>
      have := mkJobs_length (headsToProbe fs cfg)
        (deviceAssignment cfg.devices (headsToProbe fs cfg).length)
      rw [hjobs] at this
      exact absurd this.symm h0
    | cons j rest =>
      rw [dispatchLoop_cons_err fs env cfg _ j rest [] .indexError
        (by simp [buildHeadTemplate, hset, h])]
      exact ⟨rfl, rfl⟩
  · intro hdir hrg
    constructor <;> simp [probeModel, hdir, hg, hrg]

/-- Witness for C10: a non-BASE configuration with one pending head and
no finetuned checkpoint on disk. -/
theorem finetuned_ckpt_unguarded_first_witness :
    (∀ c tl, (sampleFS cfgX [(0, 0)] []).rglobResults
        (finetunedDirPath cfgX.finetunedTask.name cfgX.setting) "model_5*.pt" = c :: tl →
      buildHeadTemplate (sampleFS cfgX [(0, 0)] []) cfgX 0 0 0 =
        .ok (headProbeCmdCore cfgX 0 0 0 ("--resume --model_ckpt " ++ c ++ " "))) ∧
    ((sampleFS cfgX [(0, 0)] []).rglobResults
        (finetunedDirPath cfgX.finetunedTask.name cfgX.setting) "model_5*.pt" = [] →
      buildHeadTemplate (sampleFS cfgX [(0, 0)] []) cfgX 0 0 0 = .error .indexError) ∧
    ((sampleFS cfgX [(0, 0)] []).rglobResults
        (finetunedDirPath cfgX.finetunedTask.name cfgX.setting) "model_5*.pt" = [] →
      headsToProbe (sampleFS cfgX [(0, 0)] []) cfgX ≠ [] → cfgX.devices ≠ [] →
      (probeHeads (sampleFS cfgX [(0, 0)] []) envZero cfgX).error = some .indexError ∧
      countLaunches (probeHeads (sampleFS cfgX [(0, 0)] []) envZero cfgX).trace = 0) ∧
    ((sampleFS cfgX [(0, 0)] []).isDir (modelCheckpointDir .cross expNLI .multi expPOS) = false →
      (sampleFS cfgX [(0, 0)] []).rglobResults
        (finetunedDirPath expNLI.name .cross) "model_5*.pt" = [] →
      (probeModel (sampleFS cfgX [(0, 0)] []) envZero
        .cross .cross expNLI .multi expPOS [0] 2).error = some .indexError ∧
      (probeModel (sampleFS cfgX [(0, 0)] []) envZero
        .cross .cross expNLI .multi expPOS [0] 2).launchedCmd = none) :=
  finetuned_ckpt_unguarded_first (sampleFS cfgX [(0, 0)] []) envZero cfgX 0 0 0
    .cross .cross expNLI .multi expPOS [0] 2 (by decide) (by decide)

end HeadProbe
